import Mathlib

/-!
# XlsxWorkBook (readxl): shallow embedding and verified properties

The development embeds `src/XlsxWorkBook.h`: the workbook constructor, `sheets()`,
`cacheStringTable()`, `cacheDateStyles()` and `is1904()`.

* The rapidxml document is a tree of `XmlNode`s; a pointer that may be `NULL` is an `Option`.
* C++ exceptions, R errors and null-pointer dereferences are the `Failure` of an `Except`.
* `int` values are `Int`s kept in 32-bit range by `wrap32`.
* The functions of `utils.h` and `CellType.h` are fields of `Helpers`; `isDateFormat` and
  `isDateTime` are also given as the spec describes them.
-/

namespace XlsxWorkBook

/-! ## Failures -/

/-- Ways in which a member function leaves without a result. -/
inductive Failure
  /-- zip_buffer could not read the named part of the archive -/
  | ioError
  /-- rapidxml::parse_error raised by `parse<0>` -/
  | parseError
  /-- std::length_error raised by `std::vector::reserve` -/
  | lengthError
  /-- R error raised by `Rf_lengthgets` for a negative length -/
  | invalidLength
  /-- a member access through a `NULL` node or attribute pointer -/
  | nullDeref
  deriving DecidableEq, Repr

/-! ## The rapidxml tree -/

/-- An attribute of the parsed document: `name()` and `value()`. -/
structure XmlAttribute where
  name : String
  value : String
  deriving DecidableEq, Repr

/-- A node of the parsed document: `name()`, `value()`, its attributes and its child nodes in
document order. Data (text) nodes are nodes with the empty name; the `value()` of an element is
the text of its first data node. -/
inductive XmlNode where
  | mk (name : String) (value : String) (attributes : List XmlAttribute)
      (children : List XmlNode) : XmlNode

namespace XmlNode

/-- Name of the node, `xml_base::name()`. -/
def name : XmlNode → String
  | mk n _ _ _ => n

/-- Text of the node, `xml_base::value()`. -/
def value : XmlNode → String
  | mk _ v _ _ => v

/-- Attributes of the node in document order. -/
def attributes : XmlNode → List XmlAttribute
  | mk _ _ a _ => a

/-- Child nodes in document order: the chain `first_node()`, `next_sibling()`, ... -/
def children : XmlNode → List XmlNode
  | mk _ _ _ c => c

/-- Modelled from the spec: rapidxml.h is absent from the sources; per the spec the tree supports
lookup of the first child by tag name, which may yield "not found". This is the call
`node->first_node(name)`: the first child with that name, `none` for `NULL`. -/
def first_node (node : XmlNode) (name : String) : Option XmlNode :=
  node.children.find? (fun c => decide (c.name = name))

/-- Modelled from the spec: rapidxml.h is absent from the sources; per the spec the tree supports
iteration over siblings filtered by tag name. These are the nodes visited by
`for (r = node->first_node(name); r; r = r->next_sibling(name))`: the children with that name,
in document order. -/
def nodes_named (node : XmlNode) (name : String) : List XmlNode :=
  node.children.filter (fun c => decide (c.name = name))

/-- Modelled from the spec: rapidxml.h is absent from the sources; per the spec the tree supports
lookup of an attribute by name, which may yield "not found". This is the call
`node->first_attribute(name)`: the first attribute with that name, `none` for `NULL`. -/
def first_attribute (node : XmlNode) (name : String) : Option XmlAttribute :=
  node.attributes.find? (fun a => decide (a.name = name))

end XmlNode

/-- Access through a pointer (`p->value()`): fails on `NULL`. -/
def deref {α : Type} : Option α → Except Failure α
  | some a => Except.ok a
  | none => Except.error Failure.nullDeref

/-! ## Machine integers and the C library -/

/-- Reduction of an integer to the range of a 32-bit `int`: the two's-complement result that an
`int` operation leaves when the exact result does not fit. -/
def wrap32 (x : Int) : Int := (x + 2147483648) % 4294967296 - 2147483648

/-- Largest value of `long` (LP64). -/
def LONG_MAX : Int := 9223372036854775807

/-- Smallest value of `long` (LP64). -/
def LONG_MIN : Int := -9223372036854775808

/-- The C library predicate `isspace` in the C locale. -/
def isspace (c : Char) : Bool :=
  c = ' ' || c = '\t' || c = '\n' || c = '\r' || c.toNat = 11 || c.toNat = 12

/-- Value of the leading run of decimal digits, continuing from `acc`. -/
def digitsValue : List Char → Nat → Nat
  | [], acc => acc
  | c :: cs, acc => if c.isDigit then digitsValue cs (acc * 10 + (c.toNat - 48)) else acc

/-- The C library call `strtol(s, NULL, 10)`: leading white space, an optional sign, decimal
digits; a value outside `long` is replaced by `LONG_MAX` or `LONG_MIN`. -/
def strtol (s : List Char) : Int :=
  match s.dropWhile isspace with
  | [] => 0
  | c :: cs =>
    if c = '-' then max LONG_MIN (-(digitsValue cs 0 : Int))
    else if c = '+' then min LONG_MAX (digitsValue cs 0 : Int)
    else min LONG_MAX (digitsValue (c :: cs) 0 : Int)

/-- The C library call `atoi(s)`, which is `(int) strtol(s, NULL, 10)`. -/
def atoi (s : String) : Int := wrap32 (strtol s.toList)

/-- The value of `std::vector<std::string>::max_size()` (LP64, 32-byte strings). -/
def max_size : Nat := 9223372036854775807 / 32

/-- The call `stringTable_.reserve(n)` with an `int` argument. The argument is converted to the
unsigned 64-bit `size_type`; a request above `max_size()` throws. The contents of the vector are
not changed. -/
def reserve (n : Int) : Except Failure Unit :=
  if (n % 18446744073709551616).toNat > max_size then Except.error Failure.lengthError
  else Except.ok ()

/-! ## R character vectors -/

/-- An R character vector: each element is a string or `NA_STRING` (`none`). -/
abbrev CharacterVector := List (Option String)

/-- The R API call `Rf_lengthgets(x, n)`: the first `n` elements of `x`, filled up with
`NA_STRING` when `x` is shorter; an R error for a negative `n`. -/
def Rf_lengthgets (x : CharacterVector) (n : Int) : Except Failure CharacterVector :=
  if n < 0 then Except.error Failure.invalidLength
  else Except.ok (x.take n.toNat ++ List.replicate (n.toNat - x.length) none)

/-! ## The archive -/

/-- What `parse<0>` makes of the bytes of a part: a document node, or a parse error. -/
inductive Part where
  | malformed : Part
  | document (doc : XmlNode) : Part

/-- The archive at `path_`: the part stored under each name, if any. -/
structure Package where
  entry : String → Option Part

/-- Modelled from the spec: zip_has_file (zip.h) is absent from the sources; per the spec,
`has_part` tells whether the named part exists in the archive. -/
def zip_has_file (pkg : Package) (name : String) : Bool :=
  (pkg.entry name).isSome

/-- Modelled from the spec: zip_buffer (zip.h) is absent from the sources; per the spec,
`read_part` returns the bytes of the named part and fails with an I/O error if the part is
absent. -/
def zip_buffer (pkg : Package) (name : String) : Except Failure Part :=
  match pkg.entry name with
  | some p => Except.ok p
  | none => Except.error Failure.ioError

/-- Modelled from the spec: rapidxml.h is absent from the sources; per the spec the parser turns
a buffer into a navigable tree. This is the call `doc.parse<0>(&xml[0])`: the document node, or
`rapidxml::parse_error`. -/
def parse : Part → Except Failure XmlNode
  | Part.document doc => Except.ok doc
  | Part.malformed => Except.error Failure.parseError

/-! ## sheets() -/

/-- The locals of the loop in `sheets()`: the position `i`, the capacity `n` and the vector. -/
structure SheetsState where
  i : Int
  n : Int
  sheetNames : CharacterVector

/-- The value stored for one sheet node: `Rf_mkCharCE(name->value(), CE_UTF8)` when the node has
a `name` attribute, `NA_STRING` otherwise. -/
def sheetName (sheet : XmlNode) : Option String :=
  match sheet.first_attribute "name" with
  | some name => some name.value
  | none => none

/-- One pass through the body of the loop in `sheets()`. -/
def sheetsStep (sheet : XmlNode) (st : SheetsState) : Except Failure SheetsState := do
  let st ← (if st.i ≥ st.n then do
      let n := wrap32 (st.n * 2)
      let sheetNames ← Rf_lengthgets st.sheetNames n
      pure (SheetsState.mk st.i n sheetNames)
    else pure st)
  let sheetNames := st.sheetNames.set st.i.toNat (sheetName sheet)
  pure (SheetsState.mk (wrap32 (st.i + 1)) st.n sheetNames)

/-- The loop of `sheets()` over the chain of siblings that starts at `sheets->first_node()`. -/
def sheetsLoop : List XmlNode → SheetsState → Except Failure SheetsState
  | [], st => pure st
  | sheet :: rest, st => do
    let st ← sheetsStep sheet st
    sheetsLoop rest st

/-- The body of `sheets()` once the workbook part is parsed. -/
def sheetsOf (workbook : XmlNode) : Except Failure CharacterVector :=
  let n : Int := 100
  let sheetNames : CharacterVector := List.replicate 100 (some "")
  match workbook.first_node "workbook" with
  | none => pure sheetNames
  | some root =>
    match root.first_node "sheets" with
    | none => pure sheetNames
    | some sheets => do
      let st ← sheetsLoop sheets.children (SheetsState.mk 0 n sheetNames)
      if st.i ≠ st.n then Rf_lengthgets st.sheetNames st.i else pure st.sheetNames

/-- The member function `sheets()`. -/
def sheets (pkg : Package) : Except Failure CharacterVector := do
  let workbookXml ← zip_buffer pkg "xl/workbook.xml"
  let workbook ← parse workbookXml
  sheetsOf workbook

/-! ## cacheStringTable() -/

/-- The inner loop of `cacheStringTable()` over the `r` children: a run with a `t` child appends
its text to `out`, a run without one is passed over. -/
def appendRuns : List XmlNode → String → String
  | [], out => out
  | r :: rest, out =>
    match r.first_node "t" with
    | some t => appendRuns rest (out ++ t.value)
    | none => appendRuns rest out

/-- The body of the outer loop of `cacheStringTable()`: the entry pushed for one child of `sst`. -/
def stringItem (string : XmlNode) : String :=
  let out : String :=
    match string.first_node "t" with
    | some t => t.value
    | none => ""
  appendRuns (string.nodes_named "r") out

/-- The outer loop of `cacheStringTable()`: one `push_back` per child of `sst`. -/
def pushItems : List XmlNode → List String → List String
  | [], stringTable => stringTable
  | string :: rest, stringTable => pushItems rest (stringTable ++ [stringItem string])

/-- The body of `cacheStringTable()` once the shared-strings part is parsed. -/
def stringTableOf (sharedStrings : XmlNode) (stringTable : List String) :
    Except Failure (List String) :=
  match sharedStrings.first_node "sst" with
  | none => pure stringTable
  | some sst => do
    match sst.first_attribute "count" with
    | some count => reserve (atoi count.value)
    | none => pure ()
    pure (pushItems sst.children stringTable)

/-- The member function `cacheStringTable()`, as a function from the value of `stringTable_`
before the call to its value after the call. -/
def cacheStringTable (pkg : Package) (stringTable : List String) :
    Except Failure (List String) := do
  if !zip_has_file pkg "xl/sharedStrings.xml" then
    pure stringTable
  else
    let sharedStringsXml ← zip_buffer pkg "xl/sharedStrings.xml"
    let sharedStrings ← parse sharedStringsXml
    stringTableOf sharedStrings stringTable

/-! ## cacheDateStyles() -/

/-- The functions of `utils.h` and `CellType.h` that `XlsxWorkBook.h` calls; their sources are
not part of this development. -/
structure Helpers (ρ : Type) where
  /-- `dateOffset(is1904)`, a `double` in the source -/
  dateOffset : Bool → ρ
  /-- `isDateFormat(code)` -/
  isDateFormat : String → Bool
  /-- `isDateTime(formatId, customDateFormats)` -/
  isDateTime : Int → Finset Int → Bool

/-- The loop of `cacheDateStyles()` over the children of `numFmts`. -/
def numFmtsLoop {ρ : Type} (h : Helpers ρ) :
    List XmlNode → Finset Int → Except Failure (Finset Int)
  | [], customDateFormats => pure customDateFormats
  | numFmt :: rest, customDateFormats => do
    let formatCode ← deref (numFmt.first_attribute "formatCode")
    let code := formatCode.value
    let numFmtId ← deref (numFmt.first_attribute "numFmtId")
    let id := atoi numFmtId.value
    if h.isDateFormat code then
      numFmtsLoop h rest (insert id customDateFormats)
    else
      numFmtsLoop h rest customDateFormats

/-- The loop of `cacheDateStyles()` over the children of `cellXfs`, from position `i`. -/
def cellXfsLoop {ρ : Type} (h : Helpers ρ) (customDateFormats : Finset Int) :
    List XmlNode → Int → Finset Int → Except Failure (Finset Int)
  | [], _, dateStyles => pure dateStyles
  | cellXf :: rest, i, dateStyles => do
    let numFmtId ← deref (cellXf.first_attribute "numFmtId")
    let formatId := atoi numFmtId.value
    if h.isDateTime formatId customDateFormats then
      cellXfsLoop h customDateFormats rest (wrap32 (i + 1)) (insert i dateStyles)
    else
      cellXfsLoop h customDateFormats rest (wrap32 (i + 1)) dateStyles

/-- The body of `cacheDateStyles()` once the styles part is parsed. -/
def dateStylesOf {ρ : Type} (h : Helpers ρ) (styles : XmlNode) (dateStyles : Finset Int) :
    Except Failure (Finset Int) :=
  match styles.first_node "styleSheet" with
  | none => pure dateStyles
  | some styleSheet => do
    let customDateFormats ←
      (match styleSheet.first_node "numFmts" with
        | some numFmts => numFmtsLoop h numFmts.children ∅
        | none => pure ∅)
    match styleSheet.first_node "cellXfs" with
    | none => pure dateStyles
    | some cellXfs => cellXfsLoop h customDateFormats cellXfs.children 0 dateStyles

/-- The member function `cacheDateStyles()`, as a function from the value of `dateStyles_`
before the call to its value after the call. -/
def cacheDateStyles {ρ : Type} (h : Helpers ρ) (pkg : Package) (dateStyles : Finset Int) :
    Except Failure (Finset Int) := do
  let stylesXml ← zip_buffer pkg "xl/styles.xml"
  let styles ← parse stylesXml
  dateStylesOf h styles dateStyles

/-! ## is1904() -/

/-- The body of `is1904()` once the workbook part is parsed. -/
def is1904Of (workbook : XmlNode) : Bool :=
  match workbook.first_node "workbook" with
  | none => false
  | some root =>
    match root.first_node "workbookPr" with
    | none => false
    | some workbookPr =>
      match workbookPr.first_attribute "date1904" with
      | none => false
      | some date1904 => decide (atoi date1904.value = 1)

/-- The member function `is1904()`. -/
def is1904 (pkg : Package) : Except Failure Bool := do
  let workbookXml ← zip_buffer pkg "xl/workbook.xml"
  let workbook ← parse workbookXml
  pure (is1904Of workbook)

/-! ## The constructor -/

/-- The data members of a constructed `XlsxWorkBook`. -/
structure WorkBook (ρ : Type) where
  path : Package
  dateStyles : Finset Int
  stringTable : List String
  offset : ρ

/-- The constructor `XlsxWorkBook(path)`: an exception thrown by a step leaves no object. -/
def construct {ρ : Type} (h : Helpers ρ) (pkg : Package) : Except Failure (WorkBook ρ) := do
  let flag ← is1904 pkg
  let offset := h.dateOffset flag
  let stringTable ← cacheStringTable pkg []
  let dateStyles ← cacheDateStyles h pkg ∅
  pure (WorkBook.mk pkg dateStyles stringTable offset)

/-- The capacities that doubling reaches from 100 inside the range of `int`. -/
def IsCapacity (n : Nat) : Prop := ∃ k : Nat, k ≤ 24 ∧ n = 100 * 2 ^ k

/-! ## The classifiers of utils.h and CellType.h -/

/-- Modelled from the spec: isDateTime (CellType.h) is absent from the sources; per the spec a
record is classified as date if its format id is in the built-in date-id set, or the id is a key
in the custom-format map with value true. The built-in set is the argument `builtin`. -/
def isDateTime (builtin : Int → Bool) (formatId : Int) (customDateFormats : Finset Int) : Bool :=
  builtin formatId || decide (formatId ∈ customDateFormats)

/-- Modelled from the spec: the table of built-in date format ids is absent from the sources,
and the spec only calls it the fixed table defined by the package specification. This is the
table of ECMA-376 (18.8.30): the date and time formats have the ids 14 to 22 and 45 to 47, and
14 is the id of "m/d/yyyy". -/
def builtinDate (formatId : Int) : Bool :=
  decide (14 ≤ formatId ∧ formatId ≤ 22) || decide (45 ≤ formatId ∧ formatId ≤ 47)

/-- Modelled from the spec: the date/time token characters `y`, `m`, `d`, `h`, `s`,
case-insensitive. -/
def isDateToken (c : Char) : Bool :=
  c.toLower = 'y' || c.toLower = 'm' || c.toLower = 'd' || c.toLower = 'h' || c.toLower = 's'

/-- Where the scan of a format code stands: in plain code, inside a bracketed tag, inside a
quoted string, or right after the escape marker. -/
inductive ScanMode where
  | code : ScanMode
  | bracket : ScanMode
  | quoted : ScanMode
  | escaped : ScanMode

/-- Modelled from the spec: the token scan of isDateFormat (utils.h), which is absent from the
sources. Per the spec, bracketed tags `[`...`]` are stripped, quoted strings and a character
preceded by the escape marker (the backslash) are excluded, and the question is whether a
date/time token character remains. -/
def scanTokens : ScanMode → List Char → Bool
  | _, [] => false
  | ScanMode.bracket, c :: cs =>
    if c = ']' then scanTokens ScanMode.code cs else scanTokens ScanMode.bracket cs
  | ScanMode.quoted, c :: cs =>
    if c = Char.ofNat 34 then scanTokens ScanMode.code cs else scanTokens ScanMode.quoted cs
  | ScanMode.escaped, _ :: cs => scanTokens ScanMode.code cs
  | ScanMode.code, c :: cs =>
    if c = '[' then scanTokens ScanMode.bracket cs
    else if c = Char.ofNat 34 then scanTokens ScanMode.quoted cs
    else if c = Char.ofNat 92 then scanTokens ScanMode.escaped cs
    else isDateToken c || scanTokens ScanMode.code cs

/-- Modelled from the spec: isDateFormat (utils.h) is absent from the sources. Per the spec a
code that is the marker "General" or the empty text is not a date format; otherwise the code is
a date format when, bracketed tags and escaped text set aside, it contains a date/time token
character. -/
def isDateFormat (code : String) : Bool :=
  if code = "General" ∨ code = "" then false else scanTokens ScanMode.code code.toList

/-- A sample of `dateOffset`: 25569 days for the 1900 system and 24107 days for the 1904
system. -/
def sampleOffset (is1904 : Bool) : Int :=
  if is1904 then 24107 else 25569

/-- The helper functions with the classifiers modelled from the spec. -/
def specHelpers {ρ : Type} (dateOffset : Bool → ρ) (classify : String → Bool)
    (builtin : Int → Bool) : Helpers ρ :=
  Helpers.mk dateOffset classify (isDateTime builtin)

/-- The helper functions used in the sample evaluations. -/
def sampleHelpers : Helpers Int :=
  specHelpers sampleOffset isDateFormat builtinDate

/-- Whether every node of the list carries every one of the named attributes. -/
def allHave (names : List String) (nodes : List XmlNode) : Bool :=
  nodes.all (fun c => names.all (fun n => (c.first_attribute n).isSome))

/-- Text from which `strtol` reads no number: after leading white space and an optional sign
there is no decimal digit. -/
def unparseable (s : String) : Bool :=
  match s.toList.dropWhile isspace with
  | [] => true
  | c :: cs =>
    if c = '-' ∨ c = '+' then
      (match cs with
        | [] => true
        | d :: _ => !d.isDigit)
    else !c.isDigit

/-! ## Sample documents and archives -/

/-- An archive with the given workbook, shared-strings and styles parts and no other part. -/
def packageOf (workbook sharedStrings styles : Option Part) : Package :=
  Package.mk (fun name =>
    if name = "xl/workbook.xml" then workbook
    else if name = "xl/sharedStrings.xml" then sharedStrings
    else if name = "xl/styles.xml" then styles
    else none)

/-- The document node over the given top-level nodes. -/
def documentOf (nodes : List XmlNode) : XmlNode := XmlNode.mk "" "" [] nodes

/-- An element `<name>value</name>` holding text only. -/
def textElement (name value : String) : XmlNode :=
  XmlNode.mk name value [] [XmlNode.mk "" value [] []]

/-- A run `<r><t>value</t></r>`. -/
def runElement (value : String) : XmlNode :=
  XmlNode.mk "r" "" [] [textElement "t" value]

/-- The workbook part `<workbook><sheets><sheet name="Sheet1"/></sheets></workbook>`. -/
def plainWorkbook : XmlNode :=
  documentOf [XmlNode.mk "workbook" "" []
    [XmlNode.mk "sheets" "" [] [XmlNode.mk "sheet" "" [XmlAttribute.mk "name" "Sheet1"] []]]]

/-- The record `<si><t>A</t><r><t>B</t></r></si>`: direct text and one run. -/
def siDirectAndRun : XmlNode :=
  XmlNode.mk "si" "" [] [textElement "t" "A", runElement "B"]

/-- An archive whose shared-strings part is `<sst>` with the single record `siDirectAndRun`. -/
def pkgDirectAndRun : Package :=
  packageOf (some (Part.document plainWorkbook))
    (some (Part.document (documentOf [XmlNode.mk "sst" "" [] [siDirectAndRun]]))) none

/-- An archive whose shared-strings part is `<sst count="-1"><si><t>A</t></si></sst>`. -/
def pkgNegativeCount : Package :=
  packageOf (some (Part.document plainWorkbook))
    (some (Part.document (documentOf [XmlNode.mk "sst" "" [XmlAttribute.mk "count" "-1"]
      [XmlNode.mk "si" "" [] [textElement "t" "A"]]]))) none

/-- An archive whose workbook part is `<book/>`: there is no `workbook` root. -/
def pkgNoWorkbookRoot : Package :=
  packageOf (some (Part.document (documentOf [XmlNode.mk "book" "" [] []]))) none none

/-- An archive whose workbook part is `<workbook><workbookPr/></workbook>`: no `sheets` child. -/
def pkgNoSheetsNode : Package :=
  packageOf (some (Part.document (documentOf
    [XmlNode.mk "workbook" "" [] [XmlNode.mk "workbookPr" "" [] []]]))) none none

/-- An archive with a workbook part and no `xl/styles.xml` part. -/
def pkgNoStyles : Package :=
  packageOf (some (Part.document plainWorkbook)) none none

/-- An archive whose styles part is
`<styleSheet><cellXfs><xf/><xf numFmtId="14"/></cellXfs></styleSheet>`: the first cell format
has no `numFmtId` attribute. -/
def pkgXfWithoutNumFmtId : Package :=
  packageOf (some (Part.document plainWorkbook)) none
    (some (Part.document (documentOf [XmlNode.mk "styleSheet" "" []
      [XmlNode.mk "cellXfs" "" []
        [XmlNode.mk "xf" "" [] [], XmlNode.mk "xf" "" [XmlAttribute.mk "numFmtId" "14"] []]]])))

/-- A `sheets` node with the given children. -/
def sheetsNodeOf (sheetNodes : List XmlNode) : XmlNode :=
  XmlNode.mk "sheets" "" [] sheetNodes

/-- A `workbook` root whose only child is the `sheets` node with the given children. -/
def workbookRootOf (sheetNodes : List XmlNode) : XmlNode :=
  XmlNode.mk "workbook" "" [] [sheetsNodeOf sheetNodes]

/-- A workbook part whose `sheets` node has the given children. -/
def workbookWithSheets (sheetNodes : List XmlNode) : XmlNode :=
  documentOf [workbookRootOf sheetNodes]

/-- Three sheet nodes, the second one without a `name` attribute. -/
def threeSheets : List XmlNode :=
  [XmlNode.mk "sheet" "" [XmlAttribute.mk "name" "First"] [],
   XmlNode.mk "sheet" "" [XmlAttribute.mk "sheetId" "2"] [],
   XmlNode.mk "sheet" "" [XmlAttribute.mk "name" "Third"] []]

/-- The node `<sheet name="S"/>`. -/
def sheetS : XmlNode := XmlNode.mk "sheet" "" [XmlAttribute.mk "name" "S"] []

/-- The node `<sheet/>`. -/
def sheetBare : XmlNode := XmlNode.mk "sheet" "" [] []

/-- The root `<workbook><workbookPr date1904="1"/></workbook>`. -/
def rootDate1904 : XmlNode :=
  XmlNode.mk "workbook" "" [] [XmlNode.mk "workbookPr" "" [XmlAttribute.mk "date1904" "1"] []]

/-- An archive whose workbook part lists the three sheets of `threeSheets`. -/
def pkgThreeSheets : Package :=
  packageOf (some (Part.document (workbookWithSheets threeSheets))) none none

/-- An archive whose workbook part lists 101 sheet nodes without attributes. -/
def pkgManySheets : Package :=
  packageOf (some (Part.document (workbookWithSheets (List.replicate 101 sheetBare)))) none none

/-- An archive whose workbook part lists 1677721601 sheets named `S`. -/
def pkgTooManyNamedSheets : Package :=
  packageOf (some (Part.document (workbookWithSheets (List.replicate 1677721601 sheetS))))
    none none

/-- An archive whose workbook part lists 1677721601 sheet nodes without attributes. -/
def pkgTooManySheets : Package :=
  packageOf (some (Part.document (workbookWithSheets (List.replicate 1677721601 sheetBare))))
    none none

/-- An archive whose workbook part is `<workbook><workbookPr date1904="1"/></workbook>`. -/
def pkgDate1904 : Package :=
  packageOf (some (Part.document (documentOf [rootDate1904]))) none none

/-- The record `<si><r><t>A</t></r><r><t>B</t></r></si>`: two runs and no direct text. -/
def siTwoRuns : XmlNode :=
  XmlNode.mk "si" "" [] [runElement "A", runElement "B"]

/-- An archive whose shared-strings part is
`<sst count="-2"><si><t>x</t></si><si/></sst>`. -/
def pkgNegativeCountTwoRecords : Package :=
  packageOf (some (Part.document plainWorkbook))
    (some (Part.document (documentOf [XmlNode.mk "sst" "" [XmlAttribute.mk "count" "-2"]
      [XmlNode.mk "si" "" [] [textElement "t" "x"], XmlNode.mk "si" "" [] []]]))) none

/-- The record `<si><phoneticPr/></si>`: neither direct text nor a run. -/
def siEmpty : XmlNode :=
  XmlNode.mk "si" "" [] [XmlNode.mk "phoneticPr" "" [] []]

/-- The record `<si><t>A</t><r/><r><t>B</t></r></si>`: direct text, a run without text and a
run with text. -/
def siDirectAndRuns : XmlNode :=
  XmlNode.mk "si" "" [] [textElement "t" "A", XmlNode.mk "r" "" [] [], runElement "B"]

/-- The record `<si><r><t>A</t></r><r><rPr/></r><r><t>B</t></r></si>`: the middle run has no
text child. -/
def siRunWithoutText : XmlNode :=
  XmlNode.mk "si" "" []
    [runElement "A", XmlNode.mk "r" "" [] [XmlNode.mk "rPr" "" [] []], runElement "B"]

/-- An archive with a workbook part and nothing else. -/
def pkgWorkbookOnly : Package :=
  packageOf (some (Part.document plainWorkbook)) none none

/-- An archive without any part. -/
def pkgEmpty : Package :=
  packageOf none none none

/-- A cell format `<xf numFmtId="..."/>`. -/
def xfOf (numFmtId : String) : XmlNode :=
  XmlNode.mk "xf" "" [XmlAttribute.mk "numFmtId" numFmtId] []

/-- A custom format `<numFmt numFmtId="..." formatCode="..."/>`. -/
def numFmtOf (numFmtId formatCode : String) : XmlNode :=
  XmlNode.mk "numFmt" "" [XmlAttribute.mk "numFmtId" numFmtId,
    XmlAttribute.mk "formatCode" formatCode] []

/-- A `cellXfs` node with the given records. -/
def cellXfsOf (records : List XmlNode) : XmlNode :=
  XmlNode.mk "cellXfs" "" [] records

/-- A `styleSheet` root with only a `cellXfs` list. -/
def styleSheetOf (records : List XmlNode) : XmlNode :=
  XmlNode.mk "styleSheet" "" [] [cellXfsOf records]

/-- A `numFmts` node with the given custom formats. -/
def numFmtsOf (formats : List XmlNode) : XmlNode :=
  XmlNode.mk "numFmts" "" [] formats

/-- A `styleSheet` root with a `numFmts` section and a `cellXfs` list. -/
def styleSheetWith (formats records : List XmlNode) : XmlNode :=
  XmlNode.mk "styleSheet" "" [] [numFmtsOf formats, cellXfsOf records]

/-- An archive with the plain workbook part and the given styles document. -/
def pkgWithStyles (styles : XmlNode) : Package :=
  packageOf (some (Part.document plainWorkbook)) none (some (Part.document styles))

/-- Three records: General (0), the built-in date format 14, and the custom format 164. -/
def threeXfs : List XmlNode := [xfOf "0", xfOf "14", xfOf "164"]

/-- The styles part
`<styleSheet><cellXfs><xf numFmtId="0"/><xf numFmtId="14"/><xf numFmtId="164"/></cellXfs></styleSheet>`,
without a `numFmts` section. -/
def stylesBuiltinOnly : XmlNode := documentOf [styleSheetOf threeXfs]

/-- The styles part with the custom format 164 = "yyyy-mm-dd" and the records of `threeXfs`. -/
def stylesCustom : XmlNode :=
  documentOf [styleSheetWith [numFmtOf "164" "yyyy-mm-dd"] threeXfs]

/-- The styles part with 2147483649 records of the built-in date format 14. -/
def stylesTooManyBuiltin : XmlNode :=
  documentOf [styleSheetOf (List.replicate 2147483649 (xfOf "14"))]

/-- The styles part with the custom format 200 = "yyyy" and 2147483650 records that use it. -/
def stylesTooManyCustom : XmlNode :=
  documentOf [styleSheetWith [numFmtOf "200" "yyyy"] (List.replicate 2147483650 (xfOf "200"))]

/-- An archive whose workbook part is `rootDate1904`, with a shared-strings part of one record
and a styles part without a `styleSheet` root. -/
def pkgDate1904Full : Package :=
  packageOf (some (Part.document (documentOf [rootDate1904])))
    (some (Part.document (documentOf [XmlNode.mk "sst" "" [] [siTwoRuns]])))
    (some (Part.document (documentOf [])))

/-- An archive like `pkgDate1904Full` with other shared strings and the styles of
`stylesBuiltinOnly`. -/
def pkgDate1904Other : Package :=
  packageOf (some (Part.document (documentOf [rootDate1904])))
    (some (Part.document (documentOf [XmlNode.mk "sst" "" [] []])))
    (some (Part.document stylesBuiltinOnly))

/-- The spec's wording "the text is a number": the whole text is an optional sign followed by
one or more decimal digits and nothing else. -/
def isNumberText (s : String) : Bool :=
  match s.toList with
  | [] => false
  | c :: cs =>
    if c = '-' ∨ c = '+' then !cs.isEmpty && cs.all Char.isDigit
    else (c :: cs).all Char.isDigit

/-- The spec's wording "the text parses as the integer `n`": the text is a number in the sense
of `isNumberText` and the number it writes is `n`. -/
def parsesAsInteger (s : String) (n : Int) : Bool :=
  isNumberText s &&
    (match s.toList with
      | [] => false
      | c :: cs =>
        if c = '-' then decide (-(digitsValue cs 0 : Int) = n)
        else if c = '+' then decide ((digitsValue cs 0 : Int) = n)
        else decide ((digitsValue (c :: cs) 0 : Int) = n))

/-- An archive whose workbook part is `<workbook><workbookPr date1904="..."/></workbook>` with
the given attribute text. -/
def pkgDate1904Text (text : String) : Package :=
  packageOf (some (Part.document (documentOf [XmlNode.mk "workbook" "" []
    [XmlNode.mk "workbookPr" "" [XmlAttribute.mk "date1904" text] []]]))) none none

/-! ## Auxiliary facts -/

theorem wrap32_of_range (x : Int) (h0 : -2147483648 ≤ x) (h1 : x ≤ 2147483647) :
    wrap32 x = x := by
  unfold wrap32
  omega

theorem take_succ_set {α : Type} (x : α) :
    ∀ (l : List α) (i : Nat), i < l.length → (l.set i x).take (i + 1) = l.take i ++ [x]
  | [], i, h => by simp at h
  | a :: l, 0, _ => by simp
  | a :: l, i + 1, h => by
    have h2 : i < l.length := by simpa using h
    simp [List.set, List.take, take_succ_set x l i h2]

theorem sheetsStep_keep (sheet : XmlNode) (i n : Nat) (v : CharacterVector)
    (hin : i < n) (hn : n ≤ 1677721600) :
    sheetsStep sheet (SheetsState.mk i n v)
      = Except.ok (SheetsState.mk ((i + 1 : Nat) : Int) n (v.set i (sheetName sheet))) := by
  have h1 : ¬ ((i : Int) ≥ (n : Int)) := by omega
  have h2 : wrap32 ((i : Int) + 1) = ((i + 1 : Nat) : Int) := by
    rw [wrap32_of_range] <;> omega
  simp [sheetsStep, h1, h2, bind, Except.bind, pure, Except.pure]

theorem sheetsStep_grow (sheet : XmlNode) (i n : Nat) (v : CharacterVector)
    (hlen : v.length = n) (hin : i = n) (hn : n ≤ 838860800) :
    sheetsStep sheet (SheetsState.mk i n v)
      = Except.ok (SheetsState.mk ((i + 1 : Nat) : Int) ((2 * n : Nat) : Int)
          ((v ++ List.replicate n none).set i (sheetName sheet))) := by
  subst hin
  have h1 : ((i : Int) ≥ (i : Int)) := le_refl _
  have h2 : wrap32 ((i : Int) + 1) = ((i + 1 : Nat) : Int) := by
    rw [wrap32_of_range] <;> omega
  have h3 : wrap32 ((i : Int) * 2) = ((2 * i : Nat) : Int) := by
    rw [wrap32_of_range] <;> omega
  have h4 : ¬ (((2 * i : Nat) : Int) < 0) := by omega
  have h5 : List.take (2 * i) v = v := List.take_of_length_le (by omega)
  have h6 : 2 * i - v.length = i := by omega
  have h7 : Rf_lengthgets v ((2 * i : Nat) : Int) = Except.ok (v ++ List.replicate i none) := by
    unfold Rf_lengthgets
    rw [if_neg h4, Int.toNat_ofNat, h5, h6]
  unfold sheetsStep
  simp only [h1, if_true, h3, h7]
  show Except.ok (SheetsState.mk (wrap32 ((i : Int) + 1)) ((2 * i : Nat) : Int)
    (List.set (v ++ List.replicate i none) (Int.toNat (i : Int)) (sheetName sheet))) = _
  rw [h2, Int.toNat_ofNat]

theorem IsCapacity.le_max {n : Nat} (h : IsCapacity n) : n ≤ 1677721600 := by
  obtain ⟨k, hk, rfl⟩ := h
  have h2 : 2 ^ k ≤ 2 ^ 24 := Nat.pow_le_pow_right (by norm_num) hk
  norm_num at h2
  omega

theorem IsCapacity.pos {n : Nat} (h : IsCapacity n) : 0 < n := by
  obtain ⟨k, _, rfl⟩ := h
  have h2 : 0 < 2 ^ k := by positivity
  omega

theorem IsCapacity.double {n : Nat} (h : IsCapacity n) (hlt : n < 1677721600) :
    IsCapacity (2 * n) ∧ n ≤ 838860800 := by
  obtain ⟨k, hk, rfl⟩ := h
  have hk2 : k ≤ 23 := by
    by_contra hc
    have : k = 24 := by omega
    subst this
    norm_num at hlt
  have h2 : 2 ^ k ≤ 2 ^ 23 := Nat.pow_le_pow_right (by norm_num) hk2
  norm_num at h2
  refine ⟨⟨k + 1, by omega, ?_⟩, by omega⟩
  rw [pow_succ]
  ring

theorem sheetsLoop_spec :
    ∀ (cs : List XmlNode) (i n : Nat) (v : CharacterVector),
      v.length = n → i ≤ n → IsCapacity n → i + cs.length ≤ 1677721600 →
      ∃ (m : Nat) (w : CharacterVector),
        sheetsLoop cs (SheetsState.mk i n v)
            = Except.ok (SheetsState.mk ((i + cs.length : Nat) : Int) m w) ∧
          w.length = m ∧ i + cs.length ≤ m ∧ IsCapacity m ∧
          w.take (i + cs.length) = v.take i ++ cs.map sheetName
  | [], i, n, v, hlen, hin, hcap, _ => by
    exact ⟨n, v, rfl, hlen, by simpa using hin, hcap, by simp⟩
  | c :: rest, i, n, v, hlen, hin, hcap, hb => by
    have hb2 : i + 1 + rest.length ≤ 1677721600 := by
      simp only [List.length_cons] at hb
      omega
    have hidx : i + (c :: rest).length = i + 1 + rest.length := by
      simp only [List.length_cons]
      omega
    rw [hidx]
    by_cases hlt : i < n
    · have hstep := sheetsStep_keep c i n v hlt hcap.le_max
      obtain ⟨m, w, hloop, hwlen, hle, hcapm, htake⟩ :=
        sheetsLoop_spec rest (i + 1) n (v.set i (sheetName c))
          (by simpa using hlen) (by omega) hcap hb2
      refine ⟨m, w, ?_, hwlen, hle, hcapm, ?_⟩
      · show (sheetsStep c (SheetsState.mk i n v) >>= fun st => sheetsLoop rest st) = _
        rw [hstep]
        exact hloop
      · rw [htake, take_succ_set _ _ _ (by omega)]
        simp
    · have hieq : i = n := by omega
      have hbig : n < 1677721600 := by omega
      obtain ⟨hcap2, hn⟩ := hcap.double hbig
      have hpos := hcap.pos
      have hstep := sheetsStep_grow c i n v hlen hieq hn
      obtain ⟨m, w, hloop, hwlen, hle, hcapm, htake⟩ :=
        sheetsLoop_spec rest (i + 1) (2 * n)
          ((v ++ List.replicate n none).set i (sheetName c))
          (by simp [hlen]; omega) (by omega) hcap2 hb2
      refine ⟨m, w, ?_, hwlen, hle, hcapm, ?_⟩
      · show (sheetsStep c (SheetsState.mk i n v) >>= fun st => sheetsLoop rest st) = _
        rw [hstep]
        exact hloop
      · rw [htake, take_succ_set _ _ _ (by simp [hlen]; omega),
          List.take_append_of_le_length (by omega)]
        simp

theorem sheetsLoop_append (xs ys : List XmlNode) :
    ∀ st : SheetsState,
      sheetsLoop (xs ++ ys) st = (sheetsLoop xs st >>= fun st1 => sheetsLoop ys st1) := by
  induction xs with
  | nil => intro st; rfl
  | cons x xs ih =>
    intro st
    show (sheetsStep x st >>= fun s => sheetsLoop (xs ++ ys) s) = _
    cases hs : sheetsStep x st with
    | error e => simp [sheetsLoop, hs, bind, Except.bind]
    | ok s => simp [sheetsLoop, hs, bind, Except.bind, ih s]

theorem sheetsStep_overflow (sheet : XmlNode) (v : CharacterVector) :
    sheetsStep sheet (SheetsState.mk 1677721600 1677721600 v)
      = Except.error Failure.invalidLength := by
  rfl

theorem sheetsLoop_overflow (cs : List XmlNode) (h : 1677721600 < cs.length) :
    sheetsLoop cs (SheetsState.mk 0 100 (List.replicate 100 (some "")))
      = Except.error Failure.invalidLength := by
  have hsplit : cs = cs.take 1677721600 ++ cs.drop 1677721600 := (List.take_append_drop _ _).symm
  have hlen : (cs.take 1677721600).length = 1677721600 := by
    rw [List.length_take]
    omega
  obtain ⟨c, rest, hdrop⟩ : ∃ c rest, cs.drop 1677721600 = c :: rest := by
    cases hd : cs.drop 1677721600 with
    | nil =>
      have := congrArg List.length hd
      rw [List.length_drop] at this
      simp only [List.length_nil] at this
      omega
    | cons c rest => exact ⟨c, rest, rfl⟩
  obtain ⟨m, w, hloop, hwlen, hle, hcapm, _⟩ :=
    sheetsLoop_spec (cs.take 1677721600) 0 100 (List.replicate 100 (some ""))
      (by simp) (by omega) ⟨0, by omega, by norm_num⟩ (by omega)
  have hm : m = 1677721600 := by
    have := hcapm.le_max
    omega
  subst hm
  rw [hsplit, sheetsLoop_append, hdrop]
  have h0 : ((0 : Nat) : Int) = 0 := rfl
  have h100 : ((100 : Nat) : Int) = 100 := rfl
  rw [h0, h100] at hloop
  rw [hloop]
  show sheetsLoop (c :: rest) _ = _
  rw [hlen]
  show (sheetsStep c (SheetsState.mk 1677721600 1677721600 w) >>= fun st => sheetsLoop rest st) = _
  rw [sheetsStep_overflow]
  rfl

/-- With a `workbook` root and a `sheets` child of at most 1677721600 children, `sheetsOf`
returns the stored value of every child, in document order. -/
theorem sheetsOf_eq (workbook root sheets : XmlNode)
    (hroot : workbook.first_node "workbook" = some root)
    (hsheets : root.first_node "sheets" = some sheets)
    (hlen : sheets.children.length ≤ 1677721600) :
    sheetsOf workbook = Except.ok (sheets.children.map sheetName) := by
  obtain ⟨m, w, hloop, hwlen, hle, _, htake⟩ :=
    sheetsLoop_spec sheets.children 0 100 (List.replicate 100 (some ""))
      (by simp) (by omega) ⟨0, by omega, by norm_num⟩ (by omega)
  have h0 : ((0 : Nat) : Int) = 0 := rfl
  have h100 : ((100 : Nat) : Int) = 100 := rfl
  rw [h0, h100] at hloop
  simp only [Nat.zero_add, List.take_zero, List.nil_append] at htake hloop hle
  unfold sheetsOf
  simp only [hroot, hsheets, hloop, bind, Except.bind]
  by_cases hne : ((sheets.children.length : Nat) : Int) = (m : Int)
  · have hm : sheets.children.length = m := by exact_mod_cast hne
    rw [if_neg (by simpa using hne)]
    rw [← htake, List.take_of_length_le (by omega)]
    rfl
  · rw [if_pos (by simpa using hne)]
    unfold Rf_lengthgets
    rw [if_neg (by omega), Int.toNat_ofNat, htake]
    have : sheets.children.length - w.length = 0 := by omega
    rw [this]
    simp

/-- With more than 1677721600 children under `sheets`, doubling the capacity leaves the range of
`int` and `sheetsOf` fails. -/
theorem sheetsOf_overflow (workbook root sheets : XmlNode)
    (hroot : workbook.first_node "workbook" = some root)
    (hsheets : root.first_node "sheets" = some sheets)
    (hlen : 1677721600 < sheets.children.length) :
    sheetsOf workbook = Except.error Failure.invalidLength := by
  unfold sheetsOf
  simp only [hroot, hsheets, sheetsLoop_overflow _ hlen, bind, Except.bind]

/-- Without a `workbook` root, or without a `sheets` child under it, `sheetsOf` returns the
vector allocated at entry. -/
theorem sheetsOf_missing_node (workbook : XmlNode)
    (h : workbook.first_node "workbook" = none ∨
      ∃ root, workbook.first_node "workbook" = some root ∧ root.first_node "sheets" = none) :
    sheetsOf workbook = Except.ok (List.replicate 100 (some "")) := by
  unfold sheetsOf
  rcases h with h | ⟨root, h1, h2⟩
  · simp only [h]
    rfl
  · simp only [h1, h2]
    rfl

/-- A cell format without a `numFmtId` attribute stops the loop over `cellXfs`. -/
theorem cellXfsLoop_missing_numFmtId {ρ : Type} (h : Helpers ρ) (customDateFormats : Finset Int)
    (cellXf : XmlNode) (rest : List XmlNode) (i : Int) (dateStyles : Finset Int)
    (habs : cellXf.first_attribute "numFmtId" = none) :
    cellXfsLoop h customDateFormats (cellXf :: rest) i dateStyles
      = Except.error Failure.nullDeref := by
  simp [cellXfsLoop, habs, deref, bind, Except.bind]

/-- When every child has the given name, the children with that name are all the children. -/
theorem nodes_named_of_all (node : XmlNode) (name : String)
    (h : node.children.all (fun c => decide (c.name = name)) = true) :
    node.nodes_named name = node.children := by
  unfold XmlNode.nodes_named
  rw [List.filter_eq_self]
  intro c hc
  exact List.all_eq_true.mp h c hc

/-! ## Reading a part -/

theorem sheets_of_document (pkg : Package) (workbook : XmlNode)
    (h : pkg.entry "xl/workbook.xml" = some (Part.document workbook)) :
    sheets pkg = sheetsOf workbook := by
  simp [sheets, zip_buffer, h, parse, bind, Except.bind]

theorem is1904_of_document (pkg : Package) (workbook : XmlNode)
    (h : pkg.entry "xl/workbook.xml" = some (Part.document workbook)) :
    is1904 pkg = Except.ok (is1904Of workbook) := by
  simp [is1904, zip_buffer, h, parse, bind, Except.bind, pure, Except.pure]

theorem cacheStringTable_of_document (pkg : Package) (sharedStrings : XmlNode)
    (stringTable : List String)
    (h : pkg.entry "xl/sharedStrings.xml" = some (Part.document sharedStrings)) :
    cacheStringTable pkg stringTable = stringTableOf sharedStrings stringTable := by
  simp [cacheStringTable, zip_has_file, zip_buffer, h, parse, bind, Except.bind]

theorem cacheDateStyles_of_absent {ρ : Type} (h : Helpers ρ) (pkg : Package)
    (dateStyles : Finset Int) (habs : pkg.entry "xl/styles.xml" = none) :
    cacheDateStyles h pkg dateStyles = Except.error Failure.ioError := by
  simp [cacheDateStyles, zip_buffer, habs, bind, Except.bind]

/-! ## The shared-string table -/

theorem wrap32_range (x : Int) : -2147483648 ≤ wrap32 x ∧ wrap32 x ≤ 2147483647 := by
  unfold wrap32
  omega

theorem reserve_of_nonneg (n : Int) (h0 : 0 ≤ n) (h1 : n ≤ 2147483647) :
    reserve n = Except.ok () := by
  unfold reserve max_size
  rw [if_neg]
  have : n % 18446744073709551616 = n := Int.emod_eq_of_lt h0 (by omega)
  rw [this]
  omega

theorem reserve_of_neg (n : Int) (h0 : n < 0) (h1 : -2147483648 ≤ n) :
    reserve n = Except.error Failure.lengthError := by
  unfold reserve max_size
  rw [if_pos]
  omega

theorem pushItems_eq (records : List XmlNode) :
    ∀ stringTable : List String,
      pushItems records stringTable = stringTable ++ records.map stringItem := by
  induction records with
  | nil => intro t; simp [pushItems]
  | cons r rest ih => intro t; simp [pushItems, ih]

/-- When the `count` attribute is absent or `atoi` reads a non-negative number from it, the
table gains one entry per child of `sst`, in document order. -/
theorem stringTableOf_eq (sharedStrings sst : XmlNode) (stringTable : List String)
    (hsst : sharedStrings.first_node "sst" = some sst)
    (hcount : ∀ count, sst.first_attribute "count" = some count → 0 ≤ atoi count.value) :
    stringTableOf sharedStrings stringTable
      = Except.ok (stringTable ++ sst.children.map stringItem) := by
  unfold stringTableOf
  simp only [hsst]
  cases hc : sst.first_attribute "count" with
  | none => simp [bind, Except.bind, pure, Except.pure, pushItems_eq]
  | some count =>
    have hres := reserve_of_nonneg (atoi count.value) (hcount count hc) (wrap32_range _).2
    simp [hres, bind, Except.bind, pure, Except.pure, pushItems_eq]

/-- When `atoi` reads a negative number from the `count` attribute, `reserve` throws and no
table is produced. -/
theorem stringTableOf_negative_count (sharedStrings sst : XmlNode) (count : XmlAttribute)
    (stringTable : List String)
    (hsst : sharedStrings.first_node "sst" = some sst)
    (hcount : sst.first_attribute "count" = some count) (hneg : atoi count.value < 0) :
    stringTableOf sharedStrings stringTable = Except.error Failure.lengthError := by
  unfold stringTableOf
  have hres := reserve_of_neg (atoi count.value) hneg (wrap32_range _).1
  simp [hsst, hcount, hres, bind, Except.bind]

theorem join_cons (a : String) (l : List String) :
    String.join (a :: l) = a ++ String.join l := by
  apply String.ext
  simp [String.data_join]

theorem appendRuns_eq (runs : List XmlNode) :
    ∀ out : String,
      appendRuns runs out
        = out ++ String.join (runs.filterMap
            (fun r => (r.first_node "t").map XmlNode.value)) := by
  induction runs with
  | nil => intro out; simp [appendRuns, String.join]
  | cons r rest ih =>
    intro out
    cases ht : r.first_node "t" with
    | none => simp [appendRuns, ht, ih]
    | some t => simp [appendRuns, ht, ih, join_cons, String.append_assoc]

/-- The entry pushed for a record: the text of its first `t` child, if any, followed by the
text of every run that has a `t` child. -/
theorem stringItem_eq (string : XmlNode) :
    stringItem string
      = ((string.first_node "t").map XmlNode.value).getD ""
          ++ String.join ((string.nodes_named "r").filterMap
              (fun r => (r.first_node "t").map XmlNode.value)) := by
  unfold stringItem
  rw [appendRuns_eq]
  cases string.first_node "t" <;> rfl

theorem filterMap_of_map_eq_some {α β : Type} (f : α → Option β) :
    ∀ (l : List α) (vs : List β), l.map f = vs.map some → l.filterMap f = vs
  | [], vs, h => by
    cases vs with
    | nil => rfl
    | cons v vs => simp at h
  | a :: l, vs, h => by
    cases vs with
    | nil => simp at h
    | cons v vs =>
      simp only [List.map_cons, List.cons.injEq] at h
      rw [List.filterMap_cons, h.1]
      simp only
      rw [filterMap_of_map_eq_some f l vs h.2]

/-- With a shared-strings part that has an `sst` root whose `count` attribute is absent or read
by `atoi` as a non-negative number, `cacheStringTable` appends the entry of every child of
`sst`, in document order. -/
theorem cacheStringTable_eq (pkg : Package) (sharedStrings sst : XmlNode)
    (stringTable : List String)
    (hpart : pkg.entry "xl/sharedStrings.xml" = some (Part.document sharedStrings))
    (hsst : sharedStrings.first_node "sst" = some sst)
    (hcount : ∀ count, sst.first_attribute "count" = some count → 0 ≤ atoi count.value) :
    cacheStringTable pkg stringTable
      = Except.ok (stringTable ++ sst.children.map stringItem) := by
  rw [cacheStringTable_of_document pkg sharedStrings stringTable hpart]
  exact stringTableOf_eq sharedStrings sst stringTable hsst hcount

/-! ## Claims -/

/-- C1: for the record `<si><t>A</t><r><t>B</t></r></si>` (direct text "A" and one run "B") the
entry that `cacheStringTable` appends is "AB" and not "A": the loop over the runs is executed
after the direct text has been taken, and appends the run text to it. -/
theorem direct_text_and_run_gives_AB :
    cacheStringTable pkgDirectAndRun [] = Except.ok ["AB"]
      ∧ stringItem siDirectAndRun = "AB" ∧ stringItem siDirectAndRun ≠ "A" := by
  refine ⟨rfl, rfl, ?_⟩
  decide

/-- C2: for the shared-strings part `<sst count="-1"><si><t>A</t></si></sst>` the call
`cacheStringTable` ends in `std::length_error` raised by `reserve(-1)`; no table of length 1 is
produced. -/
theorem negative_count_throws :
    atoi "-1" = -1
      ∧ cacheStringTable pkgNegativeCount [] = Except.error Failure.lengthError
      ∧ ¬ ∃ t : List String,
          cacheStringTable pkgNegativeCount [] = Except.ok t ∧ t.length = 1 := by
  have hfail : cacheStringTable pkgNegativeCount [] = Except.error Failure.lengthError := rfl
  refine ⟨rfl, hfail, ?_⟩
  rintro ⟨t, ht, _⟩
  rw [hfail] at ht
  cases ht

/-- C3: for a workbook part without a `workbook` root, and for one whose `workbook` root has no
`sheets` child, `sheets()` returns the vector of 100 empty strings it allocated at entry: the
result has length 100, not 0. -/
theorem sheets_missing_node_returns_100 :
    sheets pkgNoWorkbookRoot = Except.ok (List.replicate 100 (some ""))
      ∧ sheets pkgNoSheetsNode = Except.ok (List.replicate 100 (some ""))
      ∧ (List.replicate 100 (some "") : CharacterVector).length = 100 :=
  ⟨rfl, rfl, rfl⟩

/-- C4: for an archive without the part `xl/styles.xml`, `cacheDateStyles` fails with the I/O
error of `zip_buffer`, and so does the construction of the workbook. -/
theorem missing_styles_part_fails {ρ : Type} (h : Helpers ρ) :
    pkgNoStyles.entry "xl/styles.xml" = none
      ∧ cacheDateStyles h pkgNoStyles ∅ = Except.error Failure.ioError
      ∧ construct h pkgNoStyles = Except.error Failure.ioError :=
  ⟨rfl, rfl, rfl⟩

/-- C5: for the styles part `<styleSheet><cellXfs><xf/><xf numFmtId="14"/></cellXfs></styleSheet>`,
whose first cell format has no `numFmtId` attribute, `cacheDateStyles` does not complete: it
reads `value()` through the `NULL` attribute pointer. -/
theorem xf_without_numFmtId_fails {ρ : Type} (h : Helpers ρ) :
    cacheDateStyles h pkgXfWithoutNumFmtId ∅ = Except.error Failure.nullDeref :=
  rfl

/-- C6 (as stated, refuted): the workbook part with 1677721601 children `<sheet name="S"/>` under
`sheets` has a `workbook` root and a `sheets` child, yet `sheets()` fails when the capacity
1677721600 is doubled, so element 0 of a result is not the name "S" of child 0. -/
theorem sheets_names_fail_beyond_int_capacity :
    sheets pkgTooManyNamedSheets = Except.error Failure.invalidLength
      ∧ ¬ ∃ v : CharacterVector,
          sheets pkgTooManyNamedSheets = Except.ok v ∧ v[0]? = some (some "S") := by
  have hfail : sheets pkgTooManyNamedSheets = Except.error Failure.invalidLength := by
    rw [sheets_of_document pkgTooManyNamedSheets
      (workbookWithSheets (List.replicate 1677721601 sheetS)) rfl]
    refine sheetsOf_overflow _ (workbookRootOf (List.replicate 1677721601 sheetS))
      (sheetsNodeOf (List.replicate 1677721601 sheetS)) rfl rfl ?_
    show 1677721600 < (List.replicate 1677721601 sheetS).length
    rw [List.length_replicate]
    omega
  refine ⟨hfail, ?_⟩
  rintro ⟨v, hv, _⟩
  rw [hfail] at hv
  cases hv

/-- C6 (amended): for a workbook part with a `workbook` root and a `sheets` child whose children
are all `sheet` elements, at most 1677721600 of them, `sheets()` returns a vector whose element
`k`, for every `k` below the number of sheet children, is the value of the `name` attribute of
the `k`-th sheet child in document order, and `NA_STRING` (not the empty string) when that child
has no `name` attribute. -/
theorem sheets_names_in_document_order (pkg : Package) (workbook root sheetsNode : XmlNode)
    (hpart : pkg.entry "xl/workbook.xml" = some (Part.document workbook))
    (hroot : workbook.first_node "workbook" = some root)
    (hsheets : root.first_node "sheets" = some sheetsNode)
    (hall : sheetsNode.children.all (fun c => decide (c.name = "sheet")) = true)
    (hlen : (sheetsNode.nodes_named "sheet").length ≤ 1677721600) :
    ∃ v : CharacterVector, sheets pkg = Except.ok v ∧
      ∀ (k : Nat) (hk : k < (sheetsNode.nodes_named "sheet").length),
        (∀ name : XmlAttribute,
            ((sheetsNode.nodes_named "sheet").get ⟨k, hk⟩).first_attribute "name" = some name →
              v[k]? = some (some name.value)) ∧
        (((sheetsNode.nodes_named "sheet").get ⟨k, hk⟩).first_attribute "name" = none →
              v[k]? = some none ∧ v[k]? ≠ some (some "")) := by
  have heq : sheetsNode.nodes_named "sheet" = sheetsNode.children :=
    nodes_named_of_all sheetsNode "sheet" hall
  have key : ∀ l : List XmlNode, l = sheetsNode.children → l.length ≤ 1677721600 →
      ∃ v : CharacterVector, sheets pkg = Except.ok v ∧
        ∀ (k : Nat) (hk : k < l.length),
          (∀ name : XmlAttribute,
              (l.get ⟨k, hk⟩).first_attribute "name" = some name →
                v[k]? = some (some name.value)) ∧
          ((l.get ⟨k, hk⟩).first_attribute "name" = none →
                v[k]? = some none ∧ v[k]? ≠ some (some "")) := by
    intro l hl hbound
    subst hl
    refine ⟨sheetsNode.children.map sheetName, ?_, ?_⟩
    · rw [sheets_of_document pkg workbook hpart]
      exact sheetsOf_eq workbook root sheetsNode hroot hsheets hbound
    · intro k hk
      have hget : (sheetsNode.children.map sheetName)[k]?
          = some (sheetName (sheetsNode.children.get ⟨k, hk⟩)) := by
        rw [List.getElem?_map, List.getElem?_eq_getElem hk]
        rfl
      refine ⟨?_, ?_⟩
      · intro name hname
        rw [hget, sheetName, hname]
      · intro hname
        rw [hget, sheetName, hname]
        exact ⟨rfl, by simp⟩
  exact key _ heq hlen

/-- Witness for C6 (amended): the three sheets `First`, (no name), `Third`. -/
theorem sheets_names_in_document_order_witness :
    pkgThreeSheets.entry "xl/workbook.xml" = some (Part.document (workbookWithSheets threeSheets))
      ∧ (workbookWithSheets threeSheets).first_node "workbook" = some (workbookRootOf threeSheets)
      ∧ (workbookRootOf threeSheets).first_node "sheets" = some (sheetsNodeOf threeSheets)
      ∧ (sheetsNodeOf threeSheets).children.all (fun c => decide (c.name = "sheet")) = true
      ∧ ((sheetsNodeOf threeSheets).nodes_named "sheet").length ≤ 1677721600
      ∧ sheets pkgThreeSheets = Except.ok [some "First", none, some "Third"]
      ∧ ∃ v : CharacterVector, sheets pkgThreeSheets = Except.ok v ∧
          ∀ (k : Nat) (hk : k < ((sheetsNodeOf threeSheets).nodes_named "sheet").length),
            (∀ name : XmlAttribute,
                (((sheetsNodeOf threeSheets).nodes_named "sheet").get ⟨k, hk⟩).first_attribute
                    "name" = some name →
                  v[k]? = some (some name.value)) ∧
            ((((sheetsNodeOf threeSheets).nodes_named "sheet").get ⟨k, hk⟩).first_attribute
                    "name" = none →
                  v[k]? = some none ∧ v[k]? ≠ some (some "")) :=
  ⟨rfl, rfl, rfl, rfl, by decide, rfl,
    sheets_names_in_document_order pkgThreeSheets (workbookWithSheets threeSheets)
      (workbookRootOf threeSheets) (sheetsNodeOf threeSheets) rfl rfl rfl rfl (by decide)⟩

/-- C7 (as stated, refuted): with exactly 1677721601 children under `sheets`, `sheets()` fails
when the capacity 1677721600 is doubled and returns no vector of length 1677721601. -/
theorem sheets_length_fails_beyond_int_capacity :
    (sheetsNodeOf (List.replicate 1677721601 sheetBare)).children.length = 1677721601
      ∧ sheets pkgTooManySheets = Except.error Failure.invalidLength
      ∧ ¬ ∃ v : CharacterVector,
          sheets pkgTooManySheets = Except.ok v ∧ v.length = 1677721601 := by
  have hlen : (sheetsNodeOf (List.replicate 1677721601 sheetBare)).children.length
      = 1677721601 := by
    show (List.replicate 1677721601 sheetBare).length = 1677721601
    rw [List.length_replicate]
  have hfail : sheets pkgTooManySheets = Except.error Failure.invalidLength := by
    rw [sheets_of_document pkgTooManySheets
      (workbookWithSheets (List.replicate 1677721601 sheetBare)) rfl]
    refine sheetsOf_overflow _ (workbookRootOf (List.replicate 1677721601 sheetBare))
      (sheetsNodeOf (List.replicate 1677721601 sheetBare)) rfl rfl ?_
    rw [hlen]
    omega
  refine ⟨hlen, hfail, ?_⟩
  rintro ⟨v, hv, _⟩
  rw [hfail] at hv
  cases hv

/-- C7 (amended): for every `m` up to 1677721600 (the last capacity that doubling from 100
reaches inside the range of `int`), when the children of the `sheets` node are exactly `m` sheet
children and nothing else, `sheets()` returns a vector of length exactly `m`. -/
theorem sheets_length_eq (pkg : Package) (workbook root sheetsNode : XmlNode) (m : Nat)
    (hpart : pkg.entry "xl/workbook.xml" = some (Part.document workbook))
    (hroot : workbook.first_node "workbook" = some root)
    (hsheets : root.first_node "sheets" = some sheetsNode)
    (hall : sheetsNode.children.all (fun c => decide (c.name = "sheet")) = true)
    (hm : (sheetsNode.nodes_named "sheet").length = m) (hle : m ≤ 1677721600) :
    ∃ v : CharacterVector, sheets pkg = Except.ok v ∧ v.length = m := by
  rw [nodes_named_of_all sheetsNode "sheet" hall] at hm
  refine ⟨sheetsNode.children.map sheetName, ?_, ?_⟩
  · rw [sheets_of_document pkg workbook hpart]
    exact sheetsOf_eq workbook root sheetsNode hroot hsheets (by omega)
  · rw [List.length_map, hm]

/-- Witness for C7 (amended): 101 sheets, one more than the initial capacity. -/
theorem sheets_length_eq_witness :
    pkgManySheets.entry "xl/workbook.xml"
        = some (Part.document (workbookWithSheets (List.replicate 101 sheetBare)))
      ∧ (workbookWithSheets (List.replicate 101 sheetBare)).first_node "workbook"
        = some (workbookRootOf (List.replicate 101 sheetBare))
      ∧ (workbookRootOf (List.replicate 101 sheetBare)).first_node "sheets"
        = some (sheetsNodeOf (List.replicate 101 sheetBare))
      ∧ (sheetsNodeOf (List.replicate 101 sheetBare)).children.all
          (fun c => decide (c.name = "sheet")) = true
      ∧ ((sheetsNodeOf (List.replicate 101 sheetBare)).nodes_named "sheet").length = 101
      ∧ 101 ≤ 1677721600
      ∧ ∃ v : CharacterVector, sheets pkgManySheets = Except.ok v ∧ v.length = 101 :=
  ⟨rfl, rfl, rfl, rfl, rfl, by decide,
    sheets_length_eq pkgManySheets (workbookWithSheets (List.replicate 101 sheetBare))
      (workbookRootOf (List.replicate 101 sheetBare))
      (sheetsNodeOf (List.replicate 101 sheetBare)) 101 rfl rfl rfl rfl rfl (by decide)⟩

/-- C8 (as stated, refuted): with the attribute texts " +1x" and "4294967297", neither of which
parses as the integer 1, `is1904()` returns `true`: `atoi` skips the white space, stops at the
first character that is no digit, and keeps the low 32 bits of the number read. -/
theorem is1904_true_without_integer_one :
    is1904 (pkgDate1904Text " +1x") = Except.ok true ∧ parsesAsInteger " +1x" 1 = false ∧
      is1904 (pkgDate1904Text "4294967297") = Except.ok true ∧
      parsesAsInteger "4294967297" 1 = false ∧
      parsesAsInteger "4294967297" 4294967297 = true ∧ parsesAsInteger "1" 1 = true := by
  refine ⟨rfl, ?_, rfl, ?_, ?_, ?_⟩ <;> decide

/-- C8 (amended): for every workbook tree, `is1904()` returns `true` if and only if the
`workbook` root exists, has a `workbookPr` child, that child has a `date1904` attribute and the C
library call `atoi` returns 1 for its text; a missing `workbook` node, `workbookPr` node or
`date1904` attribute, and the attribute values "0" and "true", all give `false`. -/
theorem is1904_true_iff (pkg : Package) (workbook : XmlNode)
    (hpart : pkg.entry "xl/workbook.xml" = some (Part.document workbook)) :
    ∃ b : Bool, is1904 pkg = Except.ok b ∧
      (b = true ↔ ∃ root workbookPr date1904,
          workbook.first_node "workbook" = some root ∧
          root.first_node "workbookPr" = some workbookPr ∧
          workbookPr.first_attribute "date1904" = some date1904 ∧
          atoi date1904.value = 1) ∧
      (workbook.first_node "workbook" = none → b = false) ∧
      (∀ root, workbook.first_node "workbook" = some root →
          root.first_node "workbookPr" = none → b = false) ∧
      (∀ root workbookPr, workbook.first_node "workbook" = some root →
          root.first_node "workbookPr" = some workbookPr →
          workbookPr.first_attribute "date1904" = none → b = false) ∧
      (∀ root workbookPr date1904, workbook.first_node "workbook" = some root →
          root.first_node "workbookPr" = some workbookPr →
          workbookPr.first_attribute "date1904" = some date1904 →
          date1904.value = "0" ∨ date1904.value = "true" → b = false) := by
  refine ⟨is1904Of workbook, is1904_of_document pkg workbook hpart, ?_, ?_, ?_, ?_, ?_⟩
  · unfold is1904Of
    cases hroot : workbook.first_node "workbook" with
    | none => simp
    | some root =>
      cases hpr : root.first_node "workbookPr" with
      | none => simp [hpr]
      | some workbookPr =>
        cases hattr : workbookPr.first_attribute "date1904" with
        | none => simp [hpr, hattr]
        | some date1904 => simp [hpr, hattr]
  · intro hroot
    simp [is1904Of, hroot]
  · intro root hroot hpr
    simp [is1904Of, hroot, hpr]
  · intro root workbookPr hroot hpr hattr
    simp [is1904Of, hroot, hpr, hattr]
  · intro root workbookPr date1904 hroot hpr hattr hval
    have hne : atoi date1904.value ≠ 1 := by
      rcases hval with h0 | h0 <;> rw [h0] <;> decide
    simp [is1904Of, hroot, hpr, hattr, hne]

/-- Witness for C8 (amended): the workbook part `<workbook><workbookPr date1904="1"/></workbook>`. -/
theorem is1904_true_iff_witness :
    pkgDate1904.entry "xl/workbook.xml" = some (Part.document (documentOf [rootDate1904]))
      ∧ is1904 pkgDate1904 = Except.ok true
      ∧ ∃ b : Bool, is1904 pkgDate1904 = Except.ok b ∧
        (b = true ↔ ∃ root workbookPr date1904,
            (documentOf [rootDate1904]).first_node "workbook" = some root ∧
            root.first_node "workbookPr" = some workbookPr ∧
            workbookPr.first_attribute "date1904" = some date1904 ∧
            atoi date1904.value = 1) ∧
        ((documentOf [rootDate1904]).first_node "workbook" = none → b = false) ∧
        (∀ root, (documentOf [rootDate1904]).first_node "workbook" = some root →
            root.first_node "workbookPr" = none → b = false) ∧
        (∀ root workbookPr, (documentOf [rootDate1904]).first_node "workbook" = some root →
            root.first_node "workbookPr" = some workbookPr →
            workbookPr.first_attribute "date1904" = none → b = false) ∧
        (∀ root workbookPr date1904,
            (documentOf [rootDate1904]).first_node "workbook" = some root →
            root.first_node "workbookPr" = some workbookPr →
            workbookPr.first_attribute "date1904" = some date1904 →
            date1904.value = "0" ∨ date1904.value = "true" → b = false) :=
  ⟨rfl, rfl, is1904_true_iff pkgDate1904 (documentOf [rootDate1904]) rfl⟩

/-- C9: for every shared-string record with no direct text child whose runs `r1..rn` each carry
a text node, with values `v1..vn`, the decoded entry is the concatenation `v1 ++ ... ++ vn` in
document order. -/
theorem runs_only_concatenate (string : XmlNode) (vs : List String)
    (hdirect : string.first_node "t" = none)
    (hruns : (string.nodes_named "r").map (fun r => (r.first_node "t").map XmlNode.value)
      = vs.map some) :
    stringItem string = String.join vs := by
  rw [stringItem_eq, hdirect, filterMap_of_map_eq_some _ _ vs hruns]
  show "" ++ String.join vs = String.join vs
  apply String.ext
  simp

/-- Witness for C9: the record with the runs "A" and "B" decodes to "AB". -/
theorem runs_only_concatenate_witness :
    siTwoRuns.first_node "t" = none
      ∧ (siTwoRuns.nodes_named "r").map (fun r => (r.first_node "t").map XmlNode.value)
          = ["A", "B"].map some
      ∧ stringItem siTwoRuns = String.join ["A", "B"]
      ∧ String.join ["A", "B"] = "AB" :=
  ⟨rfl, rfl, runs_only_concatenate siTwoRuns ["A", "B"] rfl rfl, by decide⟩

/-- C10: for the shared-strings part `<sst count="-2"><si><t>x</t></si><si/></sst>`, which has an
`sst` root and two records, `cacheStringTable` ends in `std::length_error` raised by
`reserve(-2)`: there is no table whose entry 0 is the text "x" of record 0. -/
theorem negative_count_leaves_no_entries :
    cacheStringTable pkgNegativeCountTwoRecords [] = Except.error Failure.lengthError
      ∧ ¬ ∃ t : List String,
          cacheStringTable pkgNegativeCountTwoRecords [] = Except.ok t ∧ t[0]? = some "x" := by
  have hfail : cacheStringTable pkgNegativeCountTwoRecords []
      = Except.error Failure.lengthError := rfl
  refine ⟨hfail, ?_⟩
  rintro ⟨t, ht, _⟩
  rw [hfail] at ht
  cases ht

/-! ## The date styles -/

theorem wrap32_wrap32_add (x y : Int) : wrap32 (wrap32 x + y) = wrap32 (x + y) := by
  unfold wrap32
  omega

theorem cacheDateStyles_of_document {ρ : Type} (h : Helpers ρ) (pkg : Package)
    (styles : XmlNode) (dateStyles : Finset Int)
    (hpart : pkg.entry "xl/styles.xml" = some (Part.document styles)) :
    cacheDateStyles h pkg dateStyles = dateStylesOf h styles dateStyles := by
  simp [cacheDateStyles, zip_buffer, hpart, parse, bind, Except.bind]

/-- One pass of the loop over `numFmts` for a custom format that has both attributes. -/
theorem numFmtsLoop_cons {ρ : Type} (h : Helpers ρ) (numFmt : XmlNode) (rest : List XmlNode)
    (customDateFormats : Finset Int) (formatCode numFmtId : XmlAttribute)
    (hcode : numFmt.first_attribute "formatCode" = some formatCode)
    (hid : numFmt.first_attribute "numFmtId" = some numFmtId) :
    numFmtsLoop h (numFmt :: rest) customDateFormats
      = numFmtsLoop h rest
          (if h.isDateFormat formatCode.value = true
            then insert (atoi numFmtId.value) customDateFormats else customDateFormats) := by
  by_cases hd : h.isDateFormat formatCode.value = true
  · simp [numFmtsLoop, hcode, hid, deref, bind, Except.bind, hd]
  · simp [numFmtsLoop, hcode, hid, deref, bind, Except.bind, hd]

/-- One pass of the loop over `cellXfs` for a record that has a `numFmtId` attribute. -/
theorem cellXfsLoop_cons {ρ : Type} (h : Helpers ρ) (customDateFormats : Finset Int)
    (cellXf : XmlNode) (rest : List XmlNode) (i : Int) (dateStyles : Finset Int)
    (numFmtId : XmlAttribute) (hid : cellXf.first_attribute "numFmtId" = some numFmtId) :
    cellXfsLoop h customDateFormats (cellXf :: rest) i dateStyles
      = cellXfsLoop h customDateFormats rest (wrap32 (i + 1))
          (if h.isDateTime (atoi numFmtId.value) customDateFormats = true
            then insert i dateStyles else dateStyles) := by
  by_cases hd : h.isDateTime (atoi numFmtId.value) customDateFormats = true
  · simp [cellXfsLoop, hid, deref, bind, Except.bind, hd]
  · simp [cellXfsLoop, hid, deref, bind, Except.bind, hd]

/-- The loop over `numFmts` ends with a result exactly when it meets no custom format that lacks
an attribute; the result adds the ids of the formats whose code is classified as a date. -/
theorem numFmtsLoop_spec {ρ : Type} (h : Helpers ρ) :
    ∀ (cs : List XmlNode) (acc : Finset Int),
      (∀ c ∈ cs, (c.first_attribute "formatCode").isSome = true ∧
        (c.first_attribute "numFmtId").isSome = true) →
      ∃ res, numFmtsLoop h cs acc = Except.ok res ∧
        ∀ id : Int, id ∈ res ↔ id ∈ acc ∨ ∃ c ∈ cs, ∃ code idattr,
          c.first_attribute "formatCode" = some code ∧
          c.first_attribute "numFmtId" = some idattr ∧
          h.isDateFormat code.value = true ∧ atoi idattr.value = id
  | [], acc, _ => ⟨acc, rfl, by simp⟩
  | c :: rest, acc, hall => by
    obtain ⟨hc1, hc2⟩ := hall c (List.mem_cons_self _ _)
    obtain ⟨code, hcode⟩ := Option.isSome_iff_exists.mp hc1
    obtain ⟨idattr, hid⟩ := Option.isSome_iff_exists.mp hc2
    obtain ⟨res, hres, hmem⟩ := numFmtsLoop_spec h rest
      (if h.isDateFormat code.value = true then insert (atoi idattr.value) acc else acc)
      (fun d hd => hall d (List.mem_cons_of_mem _ hd))
    refine ⟨res, ?_, ?_⟩
    · rw [numFmtsLoop_cons h c rest acc code idattr hcode hid]
      exact hres
    · intro id
      rw [hmem]
      constructor
      · rintro (hin | ⟨d, hd, code2, id2, h1, h2, h3, h4⟩)
        · by_cases hdate : h.isDateFormat code.value = true
          · rw [if_pos hdate, Finset.mem_insert] at hin
            rcases hin with hin | hin
            · exact Or.inr ⟨c, List.mem_cons_self _ _, code, idattr, hcode, hid, hdate, hin.symm⟩
            · exact Or.inl hin
          · rw [if_neg hdate] at hin
            exact Or.inl hin
        · exact Or.inr ⟨d, List.mem_cons_of_mem _ hd, code2, id2, h1, h2, h3, h4⟩
      · rintro (hin | ⟨d, hd, code2, id2, h1, h2, h3, h4⟩)
        · left
          by_cases hdate : h.isDateFormat code.value = true
          · rw [if_pos hdate, Finset.mem_insert]
            exact Or.inr hin
          · rw [if_neg hdate]
            exact hin
        · rcases List.mem_cons.mp hd with rfl | hd
          · rw [hcode] at h1
            rw [hid] at h2
            cases h1
            cases h2
            left
            rw [if_pos h3, Finset.mem_insert]
            exact Or.inl h4.symm
          · exact Or.inr ⟨d, hd, code2, id2, h1, h2, h3, h4⟩

/-- When every record has a `numFmtId` attribute the loop over `cellXfs` ends with a result: it
adds the wrapped position of every record that `isDateTime` classifies as a date. -/
theorem cellXfsLoop_spec {ρ : Type} (h : Helpers ρ) (custom : Finset Int) :
    ∀ (cs : List XmlNode) (i : Int) (ds : Finset Int),
      (∀ c ∈ cs, (c.first_attribute "numFmtId").isSome = true) → wrap32 i = i →
      ∃ res, cellXfsLoop h custom cs i ds = Except.ok res ∧
        ∀ j : Int, j ∈ res ↔ j ∈ ds ∨ ∃ (p : Nat) (c : XmlNode) (a : XmlAttribute),
          cs[p]? = some c ∧ c.first_attribute "numFmtId" = some a ∧
          h.isDateTime (atoi a.value) custom = true ∧ j = wrap32 (i + p)
  | [], i, ds, _, _ => ⟨ds, rfl, by simp⟩
  | c :: rest, i, ds, hall, hi => by
    obtain ⟨a, ha⟩ := Option.isSome_iff_exists.mp (hall c (List.mem_cons_self _ _))
    obtain ⟨res, hres, hmem⟩ := cellXfsLoop_spec h custom rest (wrap32 (i + 1))
      (if h.isDateTime (atoi a.value) custom = true then insert i ds else ds)
      (fun d hd => hall d (List.mem_cons_of_mem _ hd))
      (by unfold wrap32; omega)
    refine ⟨res, ?_, ?_⟩
    · rw [cellXfsLoop_cons h custom c rest i ds a ha]
      exact hres
    · intro j
      rw [hmem]
      constructor
      · rintro (hin | ⟨p, d, b, h1, h2, h3, h4⟩)
        · by_cases hdate : h.isDateTime (atoi a.value) custom = true
          · rw [if_pos hdate, Finset.mem_insert] at hin
            rcases hin with hin | hin
            · refine Or.inr ⟨0, c, a, List.getElem?_cons_zero, ha, hdate, ?_⟩
              rw [hin]
              simpa using hi.symm
            · exact Or.inl hin
          · rw [if_neg hdate] at hin
            exact Or.inl hin
        · refine Or.inr ⟨p + 1, d, b, by simpa using h1, h2, h3, ?_⟩
          rw [h4, wrap32_wrap32_add]
          congr 1
          push_cast
          ring
      · rintro (hin | ⟨p, d, b, h1, h2, h3, h4⟩)
        · left
          by_cases hdate : h.isDateTime (atoi a.value) custom = true
          · rw [if_pos hdate, Finset.mem_insert]
            exact Or.inr hin
          · rw [if_neg hdate]
            exact hin
        · cases p with
          | zero =>
            simp only [List.getElem?_cons_zero, Option.some.injEq] at h1
            subst h1
            rw [ha] at h2
            cases h2
            left
            rw [if_pos h3, Finset.mem_insert]
            left
            rw [h4]
            simpa using hi
          | succ q =>
            refine Or.inr ⟨q, d, b, by simpa using h1, h2, h3, ?_⟩
            rw [h4, wrap32_wrap32_add]
            congr 1
            push_cast
            ring

/-- A loop over `cellXfs` that ends with a result has met a `numFmtId` attribute on every
record. -/
theorem cellXfsLoop_ok_attrs {ρ : Type} (h : Helpers ρ) (custom : Finset Int) :
    ∀ (cs : List XmlNode) (i : Int) (ds res : Finset Int),
      cellXfsLoop h custom cs i ds = Except.ok res →
      ∀ c ∈ cs, (c.first_attribute "numFmtId").isSome = true
  | [], _, _, _, _ => by simp
  | c :: rest, i, ds, res, hok => by
    cases ha : c.first_attribute "numFmtId" with
    | none =>
      rw [cellXfsLoop_missing_numFmtId h custom c rest i ds ha] at hok
      cases hok
    | some a =>
      rw [cellXfsLoop_cons h custom c rest i ds a ha] at hok
      intro d hd
      rcases List.mem_cons.mp hd with rfl | hd
      · rw [ha]
        rfl
      · exact cellXfsLoop_ok_attrs h custom rest _ _ res hok d hd

/-- With a `styleSheet` root and a `cellXfs` list whose records all have a `numFmtId` attribute,
and custom formats that all have both attributes, `dateStylesOf` ends with a result: the wrapped
positions of the records that `isDateTime` classifies as dates against the custom date ids. -/
theorem dateStylesOf_spec {ρ : Type} (h : Helpers ρ) (styles styleSheet cellXfs : XmlNode)
    (hroot : styles.first_node "styleSheet" = some styleSheet)
    (hxfs : styleSheet.first_node "cellXfs" = some cellXfs)
    (hattr : ∀ c ∈ cellXfs.children, (c.first_attribute "numFmtId").isSome = true)
    (hfmts : ∀ numFmts, styleSheet.first_node "numFmts" = some numFmts →
      ∀ c ∈ numFmts.children, (c.first_attribute "formatCode").isSome = true ∧
        (c.first_attribute "numFmtId").isSome = true) :
    ∃ custom res : Finset Int, dateStylesOf h styles ∅ = Except.ok res ∧
      (∀ id : Int, id ∈ custom ↔ ∃ numFmts c code idattr,
          styleSheet.first_node "numFmts" = some numFmts ∧ c ∈ numFmts.children ∧
          c.first_attribute "formatCode" = some code ∧
          c.first_attribute "numFmtId" = some idattr ∧
          h.isDateFormat code.value = true ∧ atoi idattr.value = id) ∧
      (∀ j : Int, j ∈ res ↔ ∃ (p : Nat) (c : XmlNode) (a : XmlAttribute),
          cellXfs.children[p]? = some c ∧ c.first_attribute "numFmtId" = some a ∧
          h.isDateTime (atoi a.value) custom = true ∧ j = wrap32 p) := by
  have hloop : ∀ custom : Finset Int, ∃ res,
      cellXfsLoop h custom cellXfs.children 0 ∅ = Except.ok res ∧
        ∀ j : Int, j ∈ res ↔ ∃ (p : Nat) (c : XmlNode) (a : XmlAttribute),
          cellXfs.children[p]? = some c ∧ c.first_attribute "numFmtId" = some a ∧
          h.isDateTime (atoi a.value) custom = true ∧ j = wrap32 p := by
    intro custom
    obtain ⟨res, hres, hmem⟩ := cellXfsLoop_spec h custom cellXfs.children 0 ∅ hattr rfl
    refine ⟨res, hres, fun j => ?_⟩
    rw [hmem]
    simp
  cases hn : styleSheet.first_node "numFmts" with
  | none =>
    obtain ⟨res, hres, hmem⟩ := hloop ∅
    refine ⟨∅, res, ?_, ?_, hmem⟩
    · unfold dateStylesOf
      simp only [hroot, hn, hxfs, bind, Except.bind, pure, Except.pure]
      exact hres
    · intro id
      simp
  | some numFmts =>
    obtain ⟨custom, hcustom, hcmem⟩ := numFmtsLoop_spec h numFmts.children ∅ (hfmts numFmts hn)
    obtain ⟨res, hres, hmem⟩ := hloop custom
    refine ⟨custom, res, ?_, ?_, hmem⟩
    · unfold dateStylesOf
      simp only [hroot, hn, hxfs, hcustom, bind, Except.bind]
      exact hres
    · intro id
      rw [hcmem]
      constructor
      · rintro (hin | ⟨c, hc, code, idattr, h1, h2, h3, h4⟩)
        · simp at hin
        · exact ⟨numFmts, c, code, idattr, rfl, hc, h1, h2, h3, h4⟩
      · rintro ⟨n2, c, code, idattr, h0, hc, h1, h2, h3, h4⟩
        cases h0
        exact Or.inr ⟨c, hc, code, idattr, h1, h2, h3, h4⟩

/-- A result of `dateStylesOf` holds only wrapped positions of records of `cellXfs`, and nothing
when there is no `styleSheet` root or no `cellXfs` list. -/
theorem dateStylesOf_ok_mem {ρ : Type} (h : Helpers ρ) (styles : XmlNode) (res : Finset Int)
    (hok : dateStylesOf h styles ∅ = Except.ok res) :
    (styles.first_node "styleSheet" = none → res = ∅) ∧
    (∀ styleSheet, styles.first_node "styleSheet" = some styleSheet →
      styleSheet.first_node "cellXfs" = none → res = ∅) ∧
    (∀ styleSheet cellXfs, styles.first_node "styleSheet" = some styleSheet →
      styleSheet.first_node "cellXfs" = some cellXfs →
      ∀ j ∈ res, ∃ p : Nat, p < cellXfs.children.length ∧ j = wrap32 p) := by
  unfold dateStylesOf at hok
  refine ⟨?_, ?_, ?_⟩
  · intro hroot
    simp only [hroot, pure, Except.pure] at hok
    cases hok
    rfl
  · intro styleSheet hroot hxfs
    simp only [hroot, hxfs, bind, Except.bind, pure, Except.pure] at hok
    split at hok
    · cases hok
    · cases hok
      rfl
  · intro styleSheet cellXfs hroot hxfs j hj
    simp only [hroot, hxfs, bind, Except.bind] at hok
    split at hok
    · cases hok
    · rename_i custom _
      have hattr := cellXfsLoop_ok_attrs h custom cellXfs.children 0 ∅ res hok
      obtain ⟨res2, hres2, hmem⟩ := cellXfsLoop_spec h custom cellXfs.children 0 ∅ hattr rfl
      rw [hok] at hres2
      cases hres2
      rcases (hmem j).mp hj with hin | ⟨p, c, a, h1, _, _, h4⟩
      · simp at hin
      · refine ⟨p, ?_, by simpa using h4⟩
        by_contra hge
        rw [List.getElem?_eq_none (by omega)] at h1
        cases h1

theorem allHave_iff (names : List String) (nodes : List XmlNode) :
    allHave names nodes = true ↔
      ∀ c ∈ nodes, ∀ n ∈ names, (c.first_attribute n).isSome = true := by
  simp [allHave, List.all_eq_true]

theorem lt_length_of_getElem? {α : Type} (l : List α) (p : Nat) (a : α)
    (h : l[p]? = some a) : p < l.length := by
  by_contra hge
  rw [List.getElem?_eq_none (by omega)] at h
  cases h

theorem digitsValue_of_not_digit (c : Char) (cs : List Char) (acc : Nat)
    (h : c.isDigit = false) : digitsValue (c :: cs) acc = acc := by
  simp [digitsValue, h]

/-- Text without a leading number is read by `atoi` as 0. -/
theorem atoi_of_unparseable (s : String) (h : unparseable s = true) : atoi s = 0 := by
  unfold unparseable at h
  unfold atoi strtol
  cases hd : s.toList.dropWhile isspace with
  | nil => rfl
  | cons c cs =>
    rw [hd] at h
    simp only at h ⊢
    by_cases hsign : c = '-' ∨ c = '+'
    · rw [if_pos hsign] at h
      have hval : digitsValue cs 0 = 0 := by
        cases cs with
        | nil => rfl
        | cons d ds =>
          simp only [Bool.not_eq_true_eq_eq_false, Bool.not_eq_eq_eq_not, Bool.not_true] at h
          exact digitsValue_of_not_digit d ds 0 h
      rcases hsign with hc | hc
      · rw [if_pos hc, hval]
        rfl
      · have hne : ¬ c = '-' := by
          rw [hc]
          decide
        rw [if_neg hne, if_pos hc, hval]
        rfl
    · rw [if_neg hsign] at h
      have hnd : c.isDigit = false := by simpa using h
      have h1 : ¬ c = '-' := fun hc => hsign (Or.inl hc)
      have h2 : ¬ c = '+' := fun hc => hsign (Or.inr hc)
      rw [if_neg h1, if_neg h2, digitsValue_of_not_digit c cs 0 hnd]
      rfl

theorem nodes_named_of_first_node_none (node : XmlNode) (name : String)
    (h : node.first_node name = none) : node.nodes_named name = [] := by
  unfold XmlNode.first_node at h
  unfold XmlNode.nodes_named
  rw [List.find?_eq_none] at h
  rw [List.filter_eq_nil_iff]
  exact h

/-- A constructed workbook holds the offset of its 1904 flag and the table and set that the two
caching functions return. -/
theorem construct_ok {ρ : Type} (h : Helpers ρ) (pkg : Package) (wb : WorkBook ρ)
    (hok : construct h pkg = Except.ok wb) :
    ∃ flag, is1904 pkg = Except.ok flag ∧ wb.offset = h.dateOffset flag ∧
      cacheStringTable pkg [] = Except.ok wb.stringTable ∧
      cacheDateStyles h pkg ∅ = Except.ok wb.dateStyles := by
  unfold construct at hok
  cases hf : is1904 pkg with
  | error e => simp [hf, bind, Except.bind] at hok
  | ok flag =>
    cases hs : cacheStringTable pkg [] with
    | error e => simp [hf, hs, bind, Except.bind] at hok
    | ok stringTable =>
      cases hd : cacheDateStyles h pkg ∅ with
      | error e => simp [hf, hs, hd, bind, Except.bind] at hok
      | ok dateStyles =>
        simp [hf, hs, hd, bind, Except.bind, pure, Except.pure] at hok
        subst hok
        exact ⟨flag, rfl, rfl, rfl, rfl⟩

/-! ## Claims, continued -/

/-- C11: for every shared-string record that has neither a direct text child `t` nor any run
child `r`, the entry that the loop of `cacheStringTable` pushes for it is the empty string. -/
theorem no_text_no_runs_gives_empty (string : XmlNode)
    (hdirect : string.first_node "t" = none) (hruns : string.first_node "r" = none) :
    stringItem string = "" ∧
      ∀ (rest : List XmlNode) (stringTable : List String),
        pushItems (string :: rest) stringTable = pushItems rest (stringTable ++ [""]) := by
  have hitem : stringItem string = "" := by
    unfold stringItem
    rw [hdirect, nodes_named_of_first_node_none string "r" hruns]
    rfl
  refine ⟨hitem, fun rest stringTable => ?_⟩
  show pushItems rest (stringTable ++ [stringItem string]) = _
  rw [hitem]

/-- Witness for C11: the record `<si><phoneticPr/></si>`. -/
theorem no_text_no_runs_gives_empty_witness :
    siEmpty.first_node "t" = none ∧ siEmpty.first_node "r" = none ∧
      stringItem siEmpty = "" ∧
      ∀ (rest : List XmlNode) (stringTable : List String),
        pushItems (siEmpty :: rest) stringTable = pushItems rest (stringTable ++ [""]) :=
  ⟨rfl, rfl, no_text_no_runs_gives_empty siEmpty rfl rfl⟩

/-- C12: for every archive without the part `xl/sharedStrings.xml`, `cacheStringTable` returns
without failing and leaves the table empty, although a read of the part would fail: the part is
not read. The string table of a workbook constructed from such an archive is the empty list. -/
theorem missing_shared_strings_gives_empty (pkg : Package)
    (habs : pkg.entry "xl/sharedStrings.xml" = none) :
    cacheStringTable pkg [] = Except.ok [] ∧
      zip_buffer pkg "xl/sharedStrings.xml" = Except.error Failure.ioError ∧
      ∀ (ρ : Type) (h : Helpers ρ) (wb : WorkBook ρ),
        construct h pkg = Except.ok wb → wb.stringTable = [] := by
  have hcache : cacheStringTable pkg [] = Except.ok [] := by
    simp [cacheStringTable, zip_has_file, habs, pure, Except.pure]
  refine ⟨hcache, by simp [zip_buffer, habs], ?_⟩
  intro ρ h wb hok
  obtain ⟨_, _, _, hs, _⟩ := construct_ok h pkg wb hok
  rw [hcache] at hs
  exact (Except.ok.inj hs).symm

/-- Witness for C12: an archive that holds a workbook part only. -/
theorem missing_shared_strings_gives_empty_witness :
    pkgWorkbookOnly.entry "xl/sharedStrings.xml" = none ∧
      cacheStringTable pkgWorkbookOnly [] = Except.ok [] ∧
      zip_buffer pkgWorkbookOnly "xl/sharedStrings.xml" = Except.error Failure.ioError ∧
      ∀ (ρ : Type) (h : Helpers ρ) (wb : WorkBook ρ),
        construct h pkgWorkbookOnly = Except.ok wb → wb.stringTable = [] :=
  ⟨rfl, missing_shared_strings_gives_empty pkgWorkbookOnly rfl⟩

/-- C14: for every archive whose workbook part `xl/workbook.xml` cannot be read, the
construction fails with the error of the read and yields no workbook value, hence no string
table, date-style set or offset. -/
theorem unreadable_workbook_part_fails {ρ : Type} (h : Helpers ρ) (pkg : Package) (e : Failure)
    (hfail : zip_buffer pkg "xl/workbook.xml" = Except.error e) :
    construct h pkg = Except.error e ∧ ¬ ∃ wb : WorkBook ρ, construct h pkg = Except.ok wb := by
  have herr : construct h pkg = Except.error e := by
    simp [construct, is1904, hfail, bind, Except.bind]
  refine ⟨herr, ?_⟩
  rintro ⟨wb, hwb⟩
  rw [herr] at hwb
  cases hwb

/-- Witness for C14: the archive without any part. -/
theorem unreadable_workbook_part_fails_witness :
    zip_buffer pkgEmpty "xl/workbook.xml" = Except.error Failure.ioError ∧
      construct sampleHelpers pkgEmpty = Except.error Failure.ioError ∧
      ¬ ∃ wb : WorkBook Int, construct sampleHelpers pkgEmpty = Except.ok wb :=
  ⟨rfl, unreadable_workbook_part_fails sampleHelpers pkgEmpty Failure.ioError rfl⟩

/-- C15: the offset of a constructed workbook is `dateOffset` applied to the result of
`is1904()`; so two constructed workbooks with equal `is1904()` results have equal offsets,
whatever their shared-strings and styles parts hold. -/
theorem offset_depends_only_on_flag {ρ : Type} (h : Helpers ρ) (pkg1 pkg2 : Package)
    (wb1 wb2 : WorkBook ρ)
    (h1 : construct h pkg1 = Except.ok wb1) (h2 : construct h pkg2 = Except.ok wb2) :
    (∃ flag, is1904 pkg1 = Except.ok flag ∧ wb1.offset = h.dateOffset flag) ∧
      (is1904 pkg1 = is1904 pkg2 → wb1.offset = wb2.offset) := by
  obtain ⟨f1, hf1, ho1, _, _⟩ := construct_ok h pkg1 wb1 h1
  obtain ⟨f2, hf2, ho2, _, _⟩ := construct_ok h pkg2 wb2 h2
  refine ⟨⟨f1, hf1, ho1⟩, ?_⟩
  intro heq
  rw [hf1, hf2] at heq
  cases heq
  rw [ho1, ho2]

/-- Witness for C15: two archives with the 1904 flag set and different shared strings and
styles. -/
theorem offset_depends_only_on_flag_witness :
    construct sampleHelpers pkgDate1904Full
        = Except.ok (WorkBook.mk pkgDate1904Full ∅ ["AB"] 24107) ∧
      construct sampleHelpers pkgDate1904Other
        = Except.ok (WorkBook.mk pkgDate1904Other {1} [] 24107) ∧
      (∃ flag, is1904 pkgDate1904Full = Except.ok flag ∧
        (WorkBook.mk pkgDate1904Full ∅ ["AB"] 24107 : WorkBook Int).offset
          = sampleHelpers.dateOffset flag) ∧
      (is1904 pkgDate1904Full = is1904 pkgDate1904Other →
        (WorkBook.mk pkgDate1904Full ∅ ["AB"] 24107 : WorkBook Int).offset
          = (WorkBook.mk pkgDate1904Other {1} [] 24107 : WorkBook Int).offset) :=
  ⟨rfl, rfl,
    offset_depends_only_on_flag sampleHelpers pkgDate1904Full pkgDate1904Other
      (WorkBook.mk pkgDate1904Full ∅ ["AB"] 24107) (WorkBook.mk pkgDate1904Other {1} [] 24107)
      rfl rfl⟩

/-- C16: the classifier `isDateFormat`, as the spec describes it, returns true for
"yyyy-mm-dd", "h:mm:ss AM/PM" and "[Red]yyyy", and false for "0.00", "General" and
"$#,##0.00". -/
theorem isDateFormat_examples :
    isDateFormat "yyyy-mm-dd" = true ∧ isDateFormat "h:mm:ss AM/PM" = true ∧
      isDateFormat "[Red]yyyy" = true ∧ isDateFormat "0.00" = false ∧
      isDateFormat "General" = false ∧ isDateFormat "$#,##0.00" = false := by
  decide

/-- C17 (as stated, refuted): the text "14abc" is not a number, yet `atoi` reads 14 from it; the
record `<xf numFmtId="14abc"/>` is classified as a date, like a record with the built-in date
format 14, while the record `<xf numFmtId="0"/>` is not. -/
theorem numFmtId_with_leading_digits_is_not_zero :
    isNumberText "14abc" = false ∧ atoi "14abc" = 14 ∧ atoi "0" = 0 ∧
      cacheDateStyles sampleHelpers (pkgWithStyles (documentOf [styleSheetOf [xfOf "14abc"]])) ∅
        = Except.ok {0} ∧
      cacheDateStyles sampleHelpers (pkgWithStyles (documentOf [styleSheetOf [xfOf "0"]])) ∅
        = Except.ok ∅ ∧
      ({0} : Finset Int) ≠ ∅ := by
  refine ⟨by decide, rfl, rfl, rfl, rfl, by decide⟩

/-- C17 (amended): for every cell-format record whose `numFmtId` text has no leading number
(after white space and an optional sign there is no decimal digit, as in "abc" and the empty
text), `atoi` reads 0, the pass of the loop of `cacheDateStyles` over the record does not fail,
and the record is classified exactly as a record with `numFmtId` "0" is. -/
theorem unparseable_numFmtId_is_zero {ρ : Type} (h : Helpers ρ) (custom : Finset Int)
    (cellXf zeroXf : XmlNode) (rest : List XmlNode) (i : Int) (dateStyles : Finset Int)
    (numFmtId zeroId : XmlAttribute)
    (hid : cellXf.first_attribute "numFmtId" = some numFmtId)
    (hun : unparseable numFmtId.value = true)
    (hzero : zeroXf.first_attribute "numFmtId" = some zeroId)
    (hval : zeroId.value = "0") :
    atoi numFmtId.value = 0 ∧
      cellXfsLoop h custom (cellXf :: rest) i dateStyles
        = cellXfsLoop h custom rest (wrap32 (i + 1))
            (if h.isDateTime 0 custom = true then insert i dateStyles else dateStyles) ∧
      cellXfsLoop h custom (cellXf :: rest) i dateStyles
        = cellXfsLoop h custom (zeroXf :: rest) i dateStyles := by
  have ha : atoi numFmtId.value = 0 := atoi_of_unparseable numFmtId.value hun
  have hz : atoi zeroId.value = 0 := by
    rw [hval]
    rfl
  have hstep := cellXfsLoop_cons h custom cellXf rest i dateStyles numFmtId hid
  have hstep0 := cellXfsLoop_cons h custom zeroXf rest i dateStyles zeroId hzero
  rw [ha] at hstep
  rw [hz] at hstep0
  exact ⟨ha, hstep, hstep.trans hstep0.symm⟩

/-- Witness for C17 (amended): the record `<xf numFmtId="abc"/>` against `<xf numFmtId="0"/>`; the empty
text is unparseable too, and the styles part with the single record "abc" gives the same set as
the one with the single record "0". -/
theorem unparseable_numFmtId_is_zero_witness :
    (xfOf "abc").first_attribute "numFmtId" = some (XmlAttribute.mk "numFmtId" "abc") ∧
      unparseable "abc" = true ∧ unparseable "" = true ∧
      (xfOf "0").first_attribute "numFmtId" = some (XmlAttribute.mk "numFmtId" "0") ∧
      cacheDateStyles sampleHelpers (pkgWithStyles (documentOf [styleSheetOf [xfOf "abc"]])) ∅
        = Except.ok ∅ ∧
      cacheDateStyles sampleHelpers (pkgWithStyles (documentOf [styleSheetOf [xfOf "0"]])) ∅
        = Except.ok ∅ ∧
      (atoi "abc" = 0 ∧
        cellXfsLoop sampleHelpers ∅ (xfOf "abc" :: []) 0 ∅
          = cellXfsLoop sampleHelpers ∅ [] (wrap32 (0 + 1))
              (if sampleHelpers.isDateTime 0 ∅ = true then insert 0 ∅ else ∅) ∧
        cellXfsLoop sampleHelpers ∅ (xfOf "abc" :: []) 0 ∅
          = cellXfsLoop sampleHelpers ∅ (xfOf "0" :: []) 0 ∅) :=
  ⟨rfl, rfl, rfl, rfl, rfl, rfl,
    unparseable_numFmtId_is_zero sampleHelpers ∅ (xfOf "abc") (xfOf "0") [] 0 ∅
      (XmlAttribute.mk "numFmtId" "abc") (XmlAttribute.mk "numFmtId" "0") rfl rfl rfl rfl⟩

/-- C18 (as stated, refuted): the record `<si><t>A</t><r/><r><t>B</t></r></si>` has a direct text
child; its entry is "AB", while the concatenation of the text of the runs that have a text child
is "B". -/
theorem direct_text_precedes_run_text :
    stringItem siDirectAndRuns = "AB" ∧
      String.join ((siDirectAndRuns.nodes_named "r").filterMap
        (fun r => (r.first_node "t").map XmlNode.value)) = "B" ∧
      stringItem siDirectAndRuns ≠
        String.join ((siDirectAndRuns.nodes_named "r").filterMap
          (fun r => (r.first_node "t").map XmlNode.value)) := by
  refine ⟨rfl, by decide, ?_⟩
  decide

/-- C18 (amended): for every shared-string record, a run without a text child leaves the text
collected so far unchanged and the runs after it are still read; for a record without a direct
text child the entry is the concatenation, in document order, of the text of exactly those runs
that have a text child. -/
theorem runs_without_text_are_skipped (string : XmlNode)
    (hdirect : string.first_node "t" = none) :
    stringItem string
        = String.join ((string.nodes_named "r").filterMap
            (fun r => (r.first_node "t").map XmlNode.value)) ∧
      (∀ (before after : List XmlNode) (r : XmlNode),
        string.nodes_named "r" = before ++ r :: after → r.first_node "t" = none →
        stringItem string
          = String.join ((before ++ after).filterMap
              (fun r => (r.first_node "t").map XmlNode.value))) ∧
      (∀ (before after : List XmlNode) (r : XmlNode) (out : String),
        r.first_node "t" = none →
        appendRuns (before ++ r :: after) out = appendRuns (before ++ after) out) := by
  have hitem : stringItem string
      = String.join ((string.nodes_named "r").filterMap
          (fun r => (r.first_node "t").map XmlNode.value)) := by
    rw [stringItem_eq, hdirect]
    show "" ++ String.join _ = String.join _
    apply String.ext
    simp
  refine ⟨hitem, ?_, ?_⟩
  · intro before after r hsplit hr
    rw [hitem, hsplit]
    simp [List.filterMap_append, List.filterMap_cons, hr]
  · intro before after r out hr
    rw [appendRuns_eq, appendRuns_eq]
    simp [List.filterMap_append, List.filterMap_cons, hr]

/-- Witness for C18 (amended): in `<si><r><t>A</t></r><r><rPr/></r><r><t>B</t></r></si>` the
middle run has no text child and the entry is "AB". -/
theorem runs_without_text_are_skipped_witness :
    siRunWithoutText.first_node "t" = none ∧ stringItem siRunWithoutText = "AB" ∧
      (stringItem siRunWithoutText
          = String.join ((siRunWithoutText.nodes_named "r").filterMap
              (fun r => (r.first_node "t").map XmlNode.value)) ∧
        (∀ (before after : List XmlNode) (r : XmlNode),
          siRunWithoutText.nodes_named "r" = before ++ r :: after → r.first_node "t" = none →
          stringItem siRunWithoutText
            = String.join ((before ++ after).filterMap
                (fun r => (r.first_node "t").map XmlNode.value))) ∧
        (∀ (before after : List XmlNode) (r : XmlNode) (out : String),
          r.first_node "t" = none →
          appendRuns (before ++ r :: after) out = appendRuns (before ++ after) out)) :=
  ⟨rfl, rfl, runs_without_text_are_skipped siRunWithoutText rfl⟩

/-- C13 (as stated, refuted): the styles part with 2147483649 records of the built-in date
format 14 has a `styleSheet` root and a `cellXfs` list; the position counter `i` leaves the
range of `int` at the last record, so the set holds -2147483648, which is not the 0-based
position of any record. -/
theorem dateStyles_wrap_beyond_int_range :
    ∃ ds : Finset Int,
      cacheDateStyles sampleHelpers (pkgWithStyles stylesTooManyBuiltin) ∅ = Except.ok ds ∧
      (-2147483648 : Int) ∈ ds ∧ ¬ ∃ p : Nat, (-2147483648 : Int) = (p : Int) := by
  obtain ⟨custom, res, hres, _, hmem⟩ :=
    dateStylesOf_spec sampleHelpers stylesTooManyBuiltin
      (styleSheetOf (List.replicate 2147483649 (xfOf "14")))
      (cellXfsOf (List.replicate 2147483649 (xfOf "14"))) rfl rfl
      (by
        intro c hc
        have hc2 : c ∈ List.replicate 2147483649 (xfOf "14") := hc
        rw [List.eq_of_mem_replicate hc2]
        rfl)
      (by
        intro numFmts hn
        change none = some numFmts at hn
        cases hn)
  refine ⟨res, ?_, ?_, ?_⟩
  · rw [cacheDateStyles_of_document sampleHelpers (pkgWithStyles stylesTooManyBuiltin)
      stylesTooManyBuiltin ∅ rfl]
    exact hres
  · rw [hmem]
    refine ⟨2147483648, xfOf "14", XmlAttribute.mk "numFmtId" "14", ?_, rfl, rfl, rfl⟩
    show (List.replicate 2147483649 (xfOf "14"))[2147483648]? = some (xfOf "14")
    rw [List.getElem?_replicate]
    rw [if_pos (by omega)]
  · rintro ⟨p, hp⟩
    omega

/-- C13 (amended): for every styles tree with a `styleSheet` root and a `cellXfs` list of at most
2147483647 records that all have a `numFmtId` attribute, the custom formats all having their two
attributes, and every integer `i`: `i` is in the set of `cacheDateStyles` if and only if the
list has a record at 0-based position `i` whose format id is a built-in date format id or is the
id of a `numFmts` entry whose format code is classified as a date. In particular a record with a
built-in date id is in the set when there is no `numFmts` section. -/
theorem dateStyles_iff {ρ : Type} (dateOffset : Bool → ρ) (classify : String → Bool)
    (builtin : Int → Bool) (pkg : Package) (styles styleSheet cellXfs : XmlNode)
    (hpart : pkg.entry "xl/styles.xml" = some (Part.document styles))
    (hroot : styles.first_node "styleSheet" = some styleSheet)
    (hxfs : styleSheet.first_node "cellXfs" = some cellXfs)
    (hlen : cellXfs.children.length ≤ 2147483647)
    (hattr : allHave ["numFmtId"] cellXfs.children = true)
    (hfmts : (styleSheet.first_node "numFmts").all
      (fun numFmts => allHave ["formatCode", "numFmtId"] numFmts.children) = true) :
    ∃ ds : Finset Int,
      cacheDateStyles (specHelpers dateOffset classify builtin) pkg ∅ = Except.ok ds ∧
      (∀ i : Int, i ∈ ds ↔
        ∃ (p : Nat) (cellXf : XmlNode) (numFmtId : XmlAttribute),
          i = (p : Int) ∧ cellXfs.children[p]? = some cellXf ∧
          cellXf.first_attribute "numFmtId" = some numFmtId ∧
          (builtin (atoi numFmtId.value) = true ∨
            ∃ (numFmts numFmt : XmlNode) (code id : XmlAttribute),
              styleSheet.first_node "numFmts" = some numFmts ∧ numFmt ∈ numFmts.children ∧
              numFmt.first_attribute "formatCode" = some code ∧
              numFmt.first_attribute "numFmtId" = some id ∧
              classify code.value = true ∧ atoi id.value = atoi numFmtId.value)) ∧
      (styleSheet.first_node "numFmts" = none →
        ∀ (p : Nat) (cellXf : XmlNode) (numFmtId : XmlAttribute),
          cellXfs.children[p]? = some cellXf →
          cellXf.first_attribute "numFmtId" = some numFmtId →
          builtin (atoi numFmtId.value) = true → (p : Int) ∈ ds) := by
  have hattr2 : ∀ c ∈ cellXfs.children, (c.first_attribute "numFmtId").isSome = true := by
    intro c hc
    exact (allHave_iff _ _).mp hattr c hc "numFmtId" (by simp)
  have hfmts2 : ∀ numFmts, styleSheet.first_node "numFmts" = some numFmts →
      ∀ c ∈ numFmts.children, (c.first_attribute "formatCode").isSome = true ∧
        (c.first_attribute "numFmtId").isSome = true := by
    intro numFmts hn c hc
    rw [hn] at hfmts
    have hall := (allHave_iff _ _).mp hfmts c hc
    exact ⟨hall "formatCode" (by simp), hall "numFmtId" (by simp)⟩
  obtain ⟨custom, ds, hres, hcustom, hmem⟩ :=
    dateStylesOf_spec (specHelpers dateOffset classify builtin) styles styleSheet cellXfs
      hroot hxfs hattr2 hfmts2
  have hwrap : ∀ (p : Nat) (c : XmlNode), cellXfs.children[p]? = some c →
      wrap32 (p : Int) = (p : Int) := by
    intro p c hp
    have hlt := lt_length_of_getElem? _ _ _ hp
    exact wrap32_of_range _ (by omega) (by omega)
  have hdate : ∀ x : Int, (specHelpers dateOffset classify builtin).isDateTime x custom = true ↔
      (builtin x = true ∨ x ∈ custom) := by
    intro x
    simp [specHelpers, isDateTime]
  have hiff : ∀ i : Int, i ∈ ds ↔
      ∃ (p : Nat) (cellXf : XmlNode) (numFmtId : XmlAttribute),
        i = (p : Int) ∧ cellXfs.children[p]? = some cellXf ∧
        cellXf.first_attribute "numFmtId" = some numFmtId ∧
        (builtin (atoi numFmtId.value) = true ∨
          ∃ (numFmts numFmt : XmlNode) (code id : XmlAttribute),
            styleSheet.first_node "numFmts" = some numFmts ∧ numFmt ∈ numFmts.children ∧
            numFmt.first_attribute "formatCode" = some code ∧
            numFmt.first_attribute "numFmtId" = some id ∧
            classify code.value = true ∧ atoi id.value = atoi numFmtId.value) := by
    intro i
    rw [hmem]
    constructor
    · rintro ⟨p, c, a, h1, h2, h3, h4⟩
      refine ⟨p, c, a, by rw [h4, hwrap p c h1], h1, h2, ?_⟩
      rcases (hdate _).mp h3 with hb | hc
      · exact Or.inl hb
      · exact Or.inr ((hcustom _).mp hc)
    · rintro ⟨p, c, a, h1, h2, h3, h4⟩
      refine ⟨p, c, a, h2, h3, (hdate _).mpr ?_, by rw [h1, hwrap p c h2]⟩
      rcases h4 with hb | hc
      · exact Or.inl hb
      · exact Or.inr ((hcustom _).mpr hc)
  refine ⟨ds, ?_, hiff, ?_⟩
  · rw [cacheDateStyles_of_document _ pkg styles ∅ hpart]
    exact hres
  · intro _ p c a h1 h2 h3
    exact (hiff _).mpr ⟨p, c, a, rfl, h1, h2, Or.inl h3⟩

/-- Witness for C13 (amended): the styles part with the custom format 164 = "yyyy-mm-dd" and the
records 0, 14 and 164; the set holds 1 and 2. -/
theorem dateStyles_iff_witness :
    (pkgWithStyles stylesCustom).entry "xl/styles.xml" = some (Part.document stylesCustom) ∧
      stylesCustom.first_node "styleSheet"
        = some (styleSheetWith [numFmtOf "164" "yyyy-mm-dd"] threeXfs) ∧
      (styleSheetWith [numFmtOf "164" "yyyy-mm-dd"] threeXfs).first_node "cellXfs"
        = some (cellXfsOf threeXfs) ∧
      (cellXfsOf threeXfs).children.length ≤ 2147483647 ∧
      allHave ["numFmtId"] (cellXfsOf threeXfs).children = true ∧
      ((styleSheetWith [numFmtOf "164" "yyyy-mm-dd"] threeXfs).first_node "numFmts").all
        (fun numFmts => allHave ["formatCode", "numFmtId"] numFmts.children) = true ∧
      cacheDateStyles sampleHelpers (pkgWithStyles stylesCustom) ∅ = Except.ok {2, 1} ∧
      ∃ ds : Finset Int,
        cacheDateStyles (specHelpers sampleOffset isDateFormat builtinDate)
          (pkgWithStyles stylesCustom) ∅ = Except.ok ds ∧
        (∀ i : Int, i ∈ ds ↔
          ∃ (p : Nat) (cellXf : XmlNode) (numFmtId : XmlAttribute),
            i = (p : Int) ∧ (cellXfsOf threeXfs).children[p]? = some cellXf ∧
            cellXf.first_attribute "numFmtId" = some numFmtId ∧
            (builtinDate (atoi numFmtId.value) = true ∨
              ∃ (numFmts numFmt : XmlNode) (code id : XmlAttribute),
                (styleSheetWith [numFmtOf "164" "yyyy-mm-dd"] threeXfs).first_node "numFmts"
                  = some numFmts ∧
                numFmt ∈ numFmts.children ∧
                numFmt.first_attribute "formatCode" = some code ∧
                numFmt.first_attribute "numFmtId" = some id ∧
                isDateFormat code.value = true ∧ atoi id.value = atoi numFmtId.value)) ∧
        ((styleSheetWith [numFmtOf "164" "yyyy-mm-dd"] threeXfs).first_node "numFmts" = none →
          ∀ (p : Nat) (cellXf : XmlNode) (numFmtId : XmlAttribute),
            (cellXfsOf threeXfs).children[p]? = some cellXf →
            cellXf.first_attribute "numFmtId" = some numFmtId →
            builtinDate (atoi numFmtId.value) = true → (p : Int) ∈ ds) :=
  ⟨rfl, rfl, rfl, by decide, rfl, rfl, rfl,
    dateStyles_iff sampleOffset isDateFormat builtinDate (pkgWithStyles stylesCustom)
      stylesCustom (styleSheetWith [numFmtOf "164" "yyyy-mm-dd"] threeXfs) (cellXfsOf threeXfs)
      rfl rfl rfl (by decide) rfl rfl⟩

/-- C19 (as stated, refuted): the styles part with the custom date format 200 and 2147483650
records that use it gives a set that holds -2147483647, the wrapped position counter of the last
record: an element that is not an index `i` with `0 <= i < n`. -/
theorem dateStyles_negative_beyond_int_range :
    (cellXfsOf (List.replicate 2147483650 (xfOf "200"))).children.length = 2147483650 ∧
      ∃ ds : Finset Int,
        cacheDateStyles sampleHelpers (pkgWithStyles stylesTooManyCustom) ∅ = Except.ok ds ∧
        ∃ i ∈ ds, ¬ (0 ≤ i ∧ i < 2147483650) := by
  have hlen : (cellXfsOf (List.replicate 2147483650 (xfOf "200"))).children.length
      = 2147483650 := by
    show (List.replicate 2147483650 (xfOf "200")).length = 2147483650
    rw [List.length_replicate]
  obtain ⟨custom, res, hres, hcustom, hmem⟩ :=
    dateStylesOf_spec sampleHelpers stylesTooManyCustom
      (styleSheetWith [numFmtOf "200" "yyyy"] (List.replicate 2147483650 (xfOf "200")))
      (cellXfsOf (List.replicate 2147483650 (xfOf "200"))) rfl rfl
      (by
        intro c hc
        have hc2 : c ∈ List.replicate 2147483650 (xfOf "200") := hc
        rw [List.eq_of_mem_replicate hc2]
        rfl)
      (by
        intro numFmts hn
        change some (numFmtsOf [numFmtOf "200" "yyyy"]) = some numFmts at hn
        cases hn
        intro c hc
        have hc2 : c ∈ [numFmtOf "200" "yyyy"] := hc
        rw [List.mem_singleton] at hc2
        rw [hc2]
        exact ⟨rfl, rfl⟩)
  have h200 : (200 : Int) ∈ custom := by
    rw [hcustom]
    exact ⟨numFmtsOf [numFmtOf "200" "yyyy"], numFmtOf "200" "yyyy",
      XmlAttribute.mk "formatCode" "yyyy", XmlAttribute.mk "numFmtId" "200",
      rfl, List.mem_singleton.mpr rfl, rfl, rfl, rfl, rfl⟩
  have hdate : sampleHelpers.isDateTime (atoi "200") custom = true := by
    have h200b : atoi "200" = 200 := rfl
    rw [h200b]
    simp [sampleHelpers, specHelpers, isDateTime, h200]
  refine ⟨hlen, res, ?_, -2147483647, ?_, by omega⟩
  · rw [cacheDateStyles_of_document sampleHelpers (pkgWithStyles stylesTooManyCustom)
      stylesTooManyCustom ∅ rfl]
    exact hres
  · rw [hmem]
    refine ⟨2147483649, xfOf "200", XmlAttribute.mk "numFmtId" "200", ?_, rfl, hdate, rfl⟩
    show (List.replicate 2147483650 (xfOf "200"))[2147483649]? = some (xfOf "200")
    rw [List.getElem?_replicate]
    rw [if_pos (by omega)]

/-- C19 (amended): for every styles tree whose `cellXfs` list has at most 2147483647 records,
every element `i` of the set that `cacheDateStyles` returns satisfies `0 <= i < n`, with `n` the
number of child records of `cellXfs`; the set is empty when there is no `styleSheet` root, when
`cellXfs` is absent and when it has no children. -/
theorem dateStyles_valid_indices {ρ : Type} (h : Helpers ρ) (pkg : Package) (styles : XmlNode)
    (ds : Finset Int)
    (hpart : pkg.entry "xl/styles.xml" = some (Part.document styles))
    (hres : cacheDateStyles h pkg ∅ = Except.ok ds) :
    (∀ styleSheet cellXfs, styles.first_node "styleSheet" = some styleSheet →
        styleSheet.first_node "cellXfs" = some cellXfs →
        cellXfs.children.length ≤ 2147483647 →
        ∀ i ∈ ds, 0 ≤ i ∧ i < (cellXfs.children.length : Int)) ∧
      (styles.first_node "styleSheet" = none → ds = ∅) ∧
      (∀ styleSheet, styles.first_node "styleSheet" = some styleSheet →
        styleSheet.first_node "cellXfs" = none → ds = ∅) ∧
      (∀ styleSheet cellXfs, styles.first_node "styleSheet" = some styleSheet →
        styleSheet.first_node "cellXfs" = some cellXfs → cellXfs.children = [] → ds = ∅) := by
  rw [cacheDateStyles_of_document h pkg styles ∅ hpart] at hres
  obtain ⟨hnone, hnoxfs, hmem⟩ := dateStylesOf_ok_mem h styles ds hres
  refine ⟨?_, hnone, hnoxfs, ?_⟩
  · intro styleSheet cellXfs hroot hxfs hlen i hi
    obtain ⟨p, hp, hip⟩ := hmem styleSheet cellXfs hroot hxfs i hi
    rw [hip, wrap32_of_range _ (by omega) (by omega)]
    omega
  · intro styleSheet cellXfs hroot hxfs hempty
    apply Finset.eq_empty_of_forall_not_mem
    intro i hi
    obtain ⟨p, hp, _⟩ := hmem styleSheet cellXfs hroot hxfs i hi
    rw [hempty] at hp
    simp at hp

/-- Witness for C19 (amended): the styles part with the records 0, 14 and 164 and no custom
format gives the set {1}. -/
theorem dateStyles_valid_indices_witness :
    (pkgWithStyles stylesBuiltinOnly).entry "xl/styles.xml"
        = some (Part.document stylesBuiltinOnly) ∧
      cacheDateStyles sampleHelpers (pkgWithStyles stylesBuiltinOnly) ∅ = Except.ok {1} ∧
      ((∀ styleSheet cellXfs, stylesBuiltinOnly.first_node "styleSheet" = some styleSheet →
          styleSheet.first_node "cellXfs" = some cellXfs →
          cellXfs.children.length ≤ 2147483647 →
          ∀ i ∈ ({1} : Finset Int), 0 ≤ i ∧ i < (cellXfs.children.length : Int)) ∧
        (stylesBuiltinOnly.first_node "styleSheet" = none → ({1} : Finset Int) = ∅) ∧
        (∀ styleSheet, stylesBuiltinOnly.first_node "styleSheet" = some styleSheet →
          styleSheet.first_node "cellXfs" = none → ({1} : Finset Int) = ∅) ∧
        (∀ styleSheet cellXfs, stylesBuiltinOnly.first_node "styleSheet" = some styleSheet →
          styleSheet.first_node "cellXfs" = some cellXfs → cellXfs.children = [] →
          ({1} : Finset Int) = ∅)) :=
  ⟨rfl, rfl,
    dateStyles_valid_indices sampleHelpers (pkgWithStyles stylesBuiltinOnly) stylesBuiltinOnly
      {1} rfl rfl⟩

end XlsxWorkBook
